import Mathlib

/-!
Verification development for the LiberalMediaPlatform news-collector core.

The Python sources under `src/news_collector/` are embedded shallowly:
pure text-processing functions become Lean functions over `List Char`
(wrapped into `String` at the boundary), HTML-library queries
(BeautifulSoup `select` / `select_one` / `get_text`) are modelled by
record fields holding the query results, and library parsers
(`email.utils.parsedate_to_datetime`, `datetime.strptime`) are modelled
as oracle parameters since only the surrounding control flow is under
verification.  `try/except` blocks become `Except`-valued oracles and
explicit branches.  Each definition names the Python function it embeds.
-/

namespace NewsCollector

/-! ### Character-level text utilities

Embeds the text cleaning helpers shared by `nhk_collector.py`,
`nhk_collector_v2.py`, `nhk_collector_v3.py` (identical `_clean_text`
bodies) and `nhk_collector_v4.py` (a shorter `_clean_text`). -/

/-- Whitespace recognised by the model of the Python regex class `\s`
(ASCII view: space, tab, newline, carriage return, vertical tab, form feed). -/
def isWs (c : Char) : Bool :=
  c = ' ' || c = '\t' || c = '\n' || c = '\r' || c = '\x0b' || c = '\x0c'

/-- Model of `re.sub(r'\s+', ' ', text)`: every maximal run of whitespace
becomes a single space. -/
def collapseWs : List Char → List Char
  | [] => []
  | [c] => if isWs c then [' '] else [c]
  | c :: d :: rest =>
    if isWs c then
      if isWs d then collapseWs (d :: rest)
      else ' ' :: collapseWs (d :: rest)
    else c :: collapseWs (d :: rest)

/-- Right-hand part of Python `str.strip()`: drop trailing whitespace. -/
def rstripChars : List Char → List Char
  | [] => []
  | c :: cs =>
    match rstripChars cs with
    | [] => if isWs c then [] else [c]
    | d :: ds => c :: d :: ds

/-- Model of Python `str.strip()`: drop leading and trailing whitespace. -/
def stripChars (s : List Char) : List Char :=
  rstripChars (s.dropWhile isWs)

/-- Named HTML entities understood by the model of `html.unescape`,
listed longest-first within each family so that the first prefix match is
the longest one, mirroring the longest-match behaviour of the standard
library (which also accepts the legacy forms without a semicolon).
The model is restricted to the core entities; the source calls the full
`html.unescape` of the Python standard library. -/
def htmlEntityTable : List (List Char × Char) :=
  [(['a', 'm', 'p', ';'], '&'), (['a', 'm', 'p'], '&'),
   (['l', 't', ';'], '<'), (['l', 't'], '<'),
   (['g', 't', ';'], '>'), (['g', 't'], '>'),
   (['q', 'u', 'o', 't', ';'], '"'), (['q', 'u', 'o', 't'], '"'),
   (['a', 'p', 'o', 's', ';'], Char.ofNat 39)]

/-- Longest named entity found at the start of `cs`, together with the
number of characters it consumes. -/
def matchEntity (cs : List Char) : Option (Char × Nat) :=
  htmlEntityTable.findSome? fun kv =>
    if kv.1.isPrefixOf cs then some (kv.2, kv.1.length) else none

/-- Fueled scanner behind the `html.unescape` model; each step consumes at
least one character, so fuel equal to the input length suffices. -/
def unescapeAux : Nat → List Char → List Char
  | 0, s => s
  | _ + 1, [] => []
  | fuel + 1, c :: cs =>
    if c = '&' then
      match matchEntity cs with
      | some (v, n) => v :: unescapeAux fuel (cs.drop n)
      | none => '&' :: unescapeAux fuel cs
    else c :: unescapeAux fuel cs

/-- Model of `html.unescape` (restricted to `htmlEntityTable`). -/
def unescapeChars (s : List Char) : List Char :=
  unescapeAux s.length s

/-- Model of Python `text.replace('\\' + x, rep)` for the two-character
patterns used by `_clean_text`: replaces every non-overlapping occurrence
of backslash-`x`, scanning left to right. -/
def repl2 (x : Char) (rep : List Char) : List Char → List Char
  | [] => []
  | c :: cs =>
    if c = '\\' then
      match cs with
      | [] => [c]
      | y :: rest =>
        if y = x then rep ++ repl2 x rep rest
        else c :: repl2 x rep (y :: rest)
    else c :: repl2 x rep cs

/-- Embeds the block of seven `str.replace` calls of `_clean_text`
(`nhk_collector.py` lines 849-856, identical in v2 and v3), in source
order.  Note the first one maps backslash-slash to two slashes. -/
def fixEscapes (s : List Char) : List Char :=
  repl2 '\\' ['\\']
    (repl2 (Char.ofNat 39) [Char.ofNat 39]
      (repl2 '"' ['"']
        (repl2 'r' ['\r']
          (repl2 't' ['\t']
            (repl2 'n' ['\n']
              (repl2 '/' ['/', '/'] s))))))

/-- Hexadecimal digit test for the `\uXXXX` pattern `[0-9a-fA-F]`. -/
def isHexDigit (c : Char) : Bool :=
  c.isDigit || ('a' ≤ c && c ≤ 'f') || ('A' ≤ c && c ≤ 'F')

/-- Numeric value of a hexadecimal digit. -/
def hexVal (c : Char) : Nat :=
  if c.isDigit then c.toNat - 48
  else if 'a' ≤ c then c.toNat - 87
  else c.toNat - 55

/-- Model of one `re.sub(r'\\u([0-9a-fA-F]{4})', chr ∘ parse, text)` pass:
every non-overlapping match is replaced by the decoded character.
(Python `chr` accepts lone surrogates; `Char.ofNat` maps those to NUL —
no claim depends on surrogate escapes.) -/
def uDecodeStep : List Char → List Char
  | '\\' :: 'u' :: a :: b :: c :: d :: rest =>
    if isHexDigit a && isHexDigit b && isHexDigit c && isHexDigit d then
      Char.ofNat (((hexVal a * 16 + hexVal b) * 16 + hexVal c) * 16 + hexVal d)
        :: uDecodeStep rest
    else '\\' :: uDecodeStep ('u' :: a :: b :: c :: d :: rest)
  | ch :: rest => ch :: uDecodeStep rest
  | [] => []

/-- Model of `re.search(r'\\u([0-9a-fA-F]{4})', text)` as a Boolean. -/
def uHasMatch : List Char → Bool
  | '\\' :: 'u' :: a :: b :: c :: d :: rest =>
    (isHexDigit a && isHexDigit b && isHexDigit c && isHexDigit d)
      || uHasMatch ('u' :: a :: b :: c :: d :: rest)
  | _ :: rest => uHasMatch rest
  | [] => false

/-- Fueled form of the `while re.search(pattern, text)` loop of
`_clean_text` (`nhk_collector.py` lines 843-845).  The source loop has no
iteration cap; fuel `length + 1` is sufficient because every pass that
finds a match shortens the string by at least five characters
(`uLoop_ge_reaches` below makes this exact). -/
def uLoop : Nat → List Char → List Char
  | 0, s => s
  | fuel + 1, s => if uHasMatch s then uLoop fuel (uDecodeStep s) else s

/-- The unicode-escape decoding loop of `_clean_text`, run to completion. -/
def cleanUnicode (s : List Char) : List Char :=
  uLoop (s.length + 1) s

/-- Embeds `_clean_text` of `nhk_collector.py` (lines 825-864; the same
function appears verbatim in `nhk_collector_v2.py` and
`nhk_collector_v3.py`): HTML-entity decode, unicode-escape loop,
escape fixes, whitespace collapse, strip.  The `if not text: return ""`
guard is absorbed: every stage maps the empty list to itself. -/
def cleanTextChars (s : List Char) : List Char :=
  stripChars (collapseWs (fixEscapes (cleanUnicode (unescapeChars s))))

/-- String wrapper for `cleanTextChars`. -/
def cleanText (s : String) : String :=
  ⟨cleanTextChars s.data⟩

/-- Embeds `_clean_text` of `nhk_collector_v4.py` (lines 346-367):
HTML-entity decode, whitespace collapse, strip — no escape handling. -/
def cleanTextV4Chars (s : List Char) : List Char :=
  stripChars (collapseWs (unescapeChars s))

/-- String wrapper for `cleanTextV4Chars`. -/
def cleanTextV4 (s : String) : String :=
  ⟨cleanTextV4Chars s.data⟩

/-- Collapsed-form invariant: every whitespace character is a plain space
and no two spaces are adjacent.  This is the shape `collapseWs` produces. -/
def collapsedB : List Char → Bool
  | [] => true
  | [c] => !isWs c || c = ' '
  | c :: d :: rest =>
    (!isWs c || c = ' ') && !(c = ' ' && d = ' ') && collapsedB (d :: rest)

/-! ### Substring search

Model of Python `needle in haystack` and of substring checks used in the
statements below. -/

/-- Boolean substring test on character lists. -/
def containsSub (pat : List Char) : List Char → Bool
  | [] => pat.isPrefixOf []
  | c :: cs => pat.isPrefixOf (c :: cs) || containsSub pat cs

/-- String wrapper for `containsSub`. -/
def strContains (hay pat : String) : Bool :=
  containsSub pat.data hay.data

/-! ### Category classification

Embeds `_guess_category` of `nhk_collector.py` (lines 782-803) and of
`nhk_collector_v3.py` (lines 469-503), plus the category-field handling
of `NhkCollectorV3._collect_from_feed` (lines 105-107) and of
`nhk_collector_v4.get_news` (lines 40-44). -/

/-- Category mapping of `NHKCollector._guess_category` (v1). -/
def categoryMappingV1 : List (String × Int) :=
  [("政治", 1), ("経済", 2), ("社会", 3), ("国際", 4),
   ("スポーツ", 5), ("科学・文化", 6), ("国会", 1)]

/-- Embeds `NHKCollector._guess_category`: exact (case-sensitive) lookup
with default 3. -/
def guessCategoryV1 (category : String) : Int :=
  (categoryMappingV1.lookup category).getD 3

/-- Category mapping of `NhkCollectorV3._guess_category`. -/
def categoryMappingV3 : List (String × Int) :=
  [("政治", 1), ("経済", 2), ("社会", 3), ("国際", 4),
   ("スポーツ", 5), ("科学・文化", 6), ("エンタメ", 7), ("IT・科学", 8),
   ("politics", 1), ("business", 2), ("economy", 2), ("society", 3),
   ("international", 4), ("world", 4), ("sports", 5), ("culture", 6),
   ("entertainment", 7), ("science", 8), ("tech", 8), ("国会", 1)]

/-- Model of Python `str.lower()` restricted to ASCII letters; it agrees
with the full `str.lower()` on the ASCII and Japanese alphabet of the
mapping keys. -/
def lowerChar (c : Char) : Char :=
  if 'A' ≤ c && c ≤ 'Z' then Char.ofNat (c.toNat + 32) else c

/-- String wrapper for `lowerChar`. -/
def pyLower (s : String) : String :=
  ⟨s.data.map lowerChar⟩

/-- Embeds `NhkCollectorV3._guess_category`: the label is lowercased
(`category.lower()`) and looked up, default 3. -/
def guessCategoryV3 (category : String) : Int :=
  (categoryMappingV3.lookup (pyLower category)).getD 3

/-- The canonical category-ID set: the range of the static mappings
together with the default (IDs 1-8). -/
def canonicalCategoryIds : List Int := [1, 2, 3, 4, 5, 6, 7, 8]

/-- Shape of the `news_category` value a v3 feed row can carry:
absent (`None`), the empty string, or an ID. -/
inductive CatFieldV3
  | absent
  | emptyStr
  | val (n : Int)
deriving DecidableEq

/-- Embeds lines 105-107 of `NhkCollectorV3._collect_from_feed`: a
preassigned category is kept unchanged; `None` or `''` becomes 3.  The
label-based `_guess_category` is never consulted on this path. -/
def categoryV3Feed : CatFieldV3 → Int
  | .absent => 3
  | .emptyStr => 3
  | .val n => n

/-- Shape of the `news_category` value a v4 feed dict can carry:
absent, NaN (from the CSV numeric coercion), or an ID. -/
inductive CatFieldV4
  | absent
  | nanVal
  | val (n : Int)
deriving DecidableEq

/-- Embeds lines 40-44 of `nhk_collector_v4.get_news`:
`feed_info.get('news_category', 0)` with `pd.isna` mapped to 0. -/
def categoryV4 : CatFieldV4 → Int
  | .absent => 0
  | .nanVal => 0
  | .val n => n

/-- Written from the words of the specification (§4.3 CategoryClassifier),
for comparison with the code: preassigned wins; otherwise the label is
looked up case-insensitively in the static mapping; otherwise the
general/society default 3. -/
def specClassify (label : Option String) (preassigned : Option Int) : Int :=
  match preassigned with
  | some p => p
  | none =>
    match label with
    | some l => guessCategoryV3 l
    | none => 3

/-! ### Date resolution

Embeds `NhkCollectorV3._parse_date` (lines 434-467) and the publish-date
chains of `nhk_collector_v4.get_news` (lines 190-199) and
`NHKCollector.collect` (lines 603-628).  The library parsers
(`parsedate_to_datetime`, `datetime.strptime`) are oracle parameters;
only the surrounding control flow is embedded. -/

/-- Abstract datetime value; `now` stands for the `datetime.now()` call. -/
inductive PyDateTime
  | ts (n : Int)
  | now
deriving DecidableEq

/-- Oracle bundle for the external date parsers. -/
structure DateParsers where
  rfc822 : String → Option PyDateTime
  strptime : String → String → Option PyDateTime

/-- The `date_formats` list of `NhkCollectorV3._parse_date`. -/
def v3DateFormats : List String :=
  ["%Y-%m-%dT%H:%M:%S%z", "%Y-%m-%dT%H:%M:%S.%f%z", "%Y-%m-%d %H:%M:%S",
   "%Y年%m月%d日 %H時%M分", "%Y年%m月%d日"]

/-- First format of the list that parses, in order. -/
def firstFormatHit (P : DateParsers) (s : String) : List String → Option PyDateTime
  | [] => none
  | f :: fs =>
    match P.strptime s f with
    | some d => some d
    | none => firstFormatHit P s fs

/-- Embeds `NhkCollectorV3._parse_date`: empty input returns `None`
(line 443-444); otherwise RFC-822 first, then the format list, and the
current time when everything fails. -/
def parseDateV3 (P : DateParsers) (s : String) : Option PyDateTime :=
  if s = "" then none
  else
    match P.rfc822 s with
    | some d => some d
    | none =>
      match firstFormatHit P s v3DateFormats with
      | some d => some d
      | none => some PyDateTime.now

/-- Oracle with all parsers failing, for concrete instantiations. -/
def noParsers : DateParsers :=
  ⟨fun _ => none, fun _ _ => none⟩

/-- Embeds lines 190-199 of `nhk_collector_v4.get_news`: the parse of
`entry.published` when present and well-formed, else `datetime.now()`.
The input models the outcome of `parsedate_to_datetime` (absent feed
attribute and parse failure both leave `publish_date = None`). -/
def v4PublishDate (rssParsed : Option PyDateTime) : Option PyDateTime :=
  if rssParsed.isNone then some PyDateTime.now else rssParsed

/-- Embeds lines 603-628 of `NHKCollector.collect`: embedded-script
`datetime` field first, then the RSS `published` field, then
`datetime.now()`. -/
def v1PublishDate (scriptDate rssDate : Option PyDateTime) : Option PyDateTime :=
  let pd0 : Option PyDateTime :=
    match scriptDate with
    | some d => some d
    | none =>
      match rssDate with
      | some d => some d
      | none => none
  if pd0.isNone then some PyDateTime.now else pd0

/-! ### Canonical record model

`NewsItem` itself is defined in `base_collector.py`, which is not part of
the sources; the field set and optionality are read off its users:
`NHKCollector.collect` (lines 654-665), `NhkCollectorV3._collect_from_feed`
(lines 167-177) and the CSV export in `base_collector_v2.py` (lines
292-303), which tolerates `None` for `publish_date`, `category_id`,
`topic_id` and `author`.  The `raw_data` diagnostic payload is not
modelled (no claim mentions it). -/

structure NewsItemM where
  media_id : Option Int
  title : String
  url : String
  content : String
  publish_date : Option PyDateTime
  category_id : Option Int
  topic_id : Option Int
  author : Option String
deriving DecidableEq

/-- Embeds the category step of `NHKCollector.collect` (lines 630-633):
`category_id` stays `None` unless the feed entry has a `category`
attribute, in which case `_guess_category` maps it. -/
def v1CategoryId (entryCategory : Option String) : Option Int :=
  match entryCategory with
  | some c => some (guessCategoryV1 c)
  | none => none

/-- Embeds the per-entry body of `NhkCollectorV3._collect_from_feed`
(lines 118-179): entries missing title or link are skipped (`None`);
otherwise the `NewsItem` is assembled from the parsed date, the
extraction outcome and the feed-supplied category.  `topic_id` is always
`None` because `_process_body_content` never emits an `id` key, and
`author` is always the empty string. -/
def mkItemV3 (mediaId : Option Int) (feedCat : CatFieldV3) (P : DateParsers)
    (entryTitle entryLink published : String) (extractedContent : String) :
    Option NewsItemM :=
  if entryTitle = "" ∨ entryLink = "" then none
  else some
    { media_id := mediaId
      title := entryTitle
      url := entryLink
      content := extractedContent
      publish_date := parseDateV3 P published
      category_id := some (categoryV3Feed feedCat)
      topic_id := none
      author := some "" }

/-! ### Models of the regular expressions used by the collectors

The collectors extract quoted fields with patterns of the shape
`field:\s*['"]([^'"]+)['"]` (`re.search` / `re.findall`) and a bracketed
`body` payload.  The scanners below model the leftmost-match semantics:
at each position the whole pattern is tried, and on failure the scan
advances by one character. -/

/-- Quote characters of the character class used in the field patterns. -/
def isQuote (c : Char) : Bool :=
  c = '"' || c = Char.ofNat 39

/-- Match `\s*['"]([^'"]+)['"]` at the start of `s`; returns the capture
and the remaining suffix. -/
def matchQuoted (s : List Char) : Option (List Char × List Char) :=
  match s.dropWhile isWs with
  | q :: rest =>
    if isQuote q then
      let cap := rest.takeWhile (fun c => !isQuote c)
      match rest.dropWhile (fun c => !isQuote c) with
      | _ :: rest3 => if cap ≠ [] then some (cap, rest3) else none
      | [] => none
    else none
  | [] => none

/-- Model of `re.search(field + r':\s*[\'"]([^\'"]+)[\'"]', s)`:
first position where the whole pattern matches. -/
def reFieldAux (pat : List Char) : List Char → Option (List Char)
  | [] => none
  | c :: cs =>
    if pat.isPrefixOf (c :: cs) then
      match matchQuoted ((c :: cs).drop pat.length) with
      | some (cap, _) => some cap
      | none => reFieldAux pat cs
    else reFieldAux pat cs

/-- String wrapper: capture of `re.search(field:… , s)`. -/
def reFieldStr (field s : String) : Option String :=
  (reFieldAux (field.data ++ [':']) s.data).map fun l => ⟨l⟩

/-- Model of `re.findall(field + r':\s*[\'"]([^\'"]+)[\'"]', s)`: all
non-overlapping matches, continuing after each match.  Fuel equals the
input length; every step consumes at least one character. -/
def reFieldAllAux (pat : List Char) : Nat → List Char → List (List Char)
  | 0, _ => []
  | _ + 1, [] => []
  | fuel + 1, c :: cs =>
    if pat.isPrefixOf (c :: cs) then
      match matchQuoted ((c :: cs).drop pat.length) with
      | some (cap, rest) => cap :: reFieldAllAux pat fuel rest
      | none => reFieldAllAux pat fuel cs
    else reFieldAllAux pat fuel cs

/-- String wrapper for `reFieldAllAux`. -/
def reFieldAll (field : String) (s : String) : List String :=
  (reFieldAllAux (field.data ++ [':']) s.data.length s.data).map fun l => ⟨l⟩

/-- Scan for the first script whose string contains `__DetailProp__`
(`script.string and '__DetailProp__' in script.string`). -/
def findDetailScript : List (Option String) → Option String
  | [] => none
  | some s :: rest =>
    if strContains s "__DetailProp__" then some s else findDetailScript rest
  | none :: rest => findDetailScript rest

/-- Lazy part of `body:\s*(\[.*?\}(?=\s*\])\s*\])`: scan for the first
closing brace that is followed by optional whitespace and a bracket,
capturing through that bracket. -/
def bodyCapAux : Nat → List Char → Option (List Char)
  | 0, _ => none
  | _ + 1, [] => none
  | fuel + 1, c :: cs =>
    if c = '}' then
      match cs.dropWhile isWs with
      | ']' :: _ => some (c :: cs.takeWhile isWs ++ [']'])
      | _ => (bodyCapAux fuel cs).map fun t => c :: t
    else (bodyCapAux fuel cs).map fun t => c :: t

/-- Model of `re.search(r'body:\s*(\[.*?\}(?=\s*\])\s*\])', s, re.DOTALL)`
of `NHKCollector.collect` (line 119). -/
def bodyMatchAux : Nat → List Char → Option (List Char)
  | 0, _ => none
  | _ + 1, [] => none
  | fuel + 1, c :: cs =>
    if ("body:".data).isPrefixOf (c :: cs) then
      match ((c :: cs).drop 5).dropWhile isWs with
      | '[' :: rest =>
        match bodyCapAux (rest.length + 1) rest with
        | some cap => some ('[' :: cap)
        | none => bodyMatchAux fuel cs
      | _ => bodyMatchAux fuel cs
    else bodyMatchAux fuel cs

/-- String wrapper for `bodyMatchAux`. -/
def bodyMatch (s : String) : Option String :=
  (bodyMatchAux (s.data.length + 1) s.data).map fun l => ⟨l⟩

/-- Model of `re.search(r'"body"\s*:\s*(\[.*?\])', s, re.DOTALL)` of
`NhkCollectorV3._extract_content` (line 278): lazy capture up to the
first closing bracket. -/
def bodyJsonCapAux : Nat → List Char → Option (List Char)
  | 0, _ => none
  | _ + 1, [] => none
  | fuel + 1, c :: cs =>
    if ("\"body\"".data).isPrefixOf (c :: cs) then
      match (((c :: cs).drop 6).dropWhile isWs) with
      | ':' :: r1 =>
        match r1.dropWhile isWs with
        | '[' :: rest =>
          let mid := rest.takeWhile (fun ch => !(ch = ']'))
          match rest.dropWhile (fun ch => !(ch = ']')) with
          | ']' :: _ => some ('[' :: mid ++ [']'])
          | _ => bodyJsonCapAux fuel cs
        | _ => bodyJsonCapAux fuel cs
      | _ => bodyJsonCapAux fuel cs
    else bodyJsonCapAux fuel cs

/-- String wrapper for `bodyJsonCapAux`. -/
def bodyJsonCap (s : String) : Option String :=
  (bodyJsonCapAux (s.data.length + 1) s.data).map fun l => ⟨l⟩

/-! ### Small HTML helpers -/

/-- Fueled general `str.replace(pat, rep)` for multi-character patterns
(used for the `<br />` conversions). -/
def replAllAux (pat rep : List Char) : Nat → List Char → List Char
  | 0, s => s
  | _ + 1, [] => []
  | fuel + 1, c :: cs =>
    if pat.isPrefixOf (c :: cs) then
      rep ++ replAllAux pat rep fuel ((c :: cs).drop pat.length)
    else c :: replAllAux pat rep fuel cs

/-- String wrapper for `replAllAux`. -/
def replAllStr (pat rep s : String) : String :=
  ⟨replAllAux pat.data rep.data s.data.length s.data⟩

/-- The two `replace` calls converting break tags to newlines
(`.replace('<br />', '\n').replace('<br/>', '\n')`). -/
def brToNewline (s : String) : String :=
  replAllStr "<br/>" "\n" (replAllStr "<br />" "\n" s)

/-- Drop a tag body: consume up to and including the closing bracket. -/
def skipTag : List Char → List Char
  | [] => []
  | '>' :: cs => cs
  | _ :: cs => skipTag cs

/-- Text nodes of a serialized HTML fragment (the maximal runs outside
tags), for the model of `BeautifulSoup(...).get_text(strip=True)`. -/
def textNodesAux : Nat → List Char → List (List Char)
  | 0, _ => [[]]
  | _ + 1, [] => [[]]
  | fuel + 1, c :: cs =>
    if c = '<' then [] :: textNodesAux fuel (skipTag cs)
    else
      match textNodesAux fuel cs with
      | [] => [[c]]
      | n :: ns => (c :: n) :: ns

/-- Model of `BeautifulSoup(html).get_text(strip=True)`: each text node
stripped, all nodes concatenated. -/
def getTextStrip (s : String) : String :=
  ⟨((textNodesAux s.data.length s.data).map stripChars).flatten⟩

/-! ### Structured content -/

/-- Content slot of a section dict: a single string or a list of
paragraph strings. -/
inductive SectContent
  | str (s : String)
  | list (items : List String)
deriving DecidableEq

/-- One section dict of `structured_content['sections']`; `heading` and
`level` are present only for heading-started sections. -/
structure Sect where
  heading : Option String
  level : Option Nat
  content : SectContent
deriving DecidableEq

/-- The `structured_content` accumulator of `NHKCollector.collect`
(lines 56-60), with the optional `thumbnail_url` key of line 92. -/
structure StructuredV1 where
  sections : List Sect
  images : List String
  videos : List String
  thumbnail : Option String
deriving DecidableEq

/-- Initial `structured_content` value. -/
def emptyStructuredV1 : StructuredV1 := ⟨[], [], [], none⟩

/-! ### v4 content extraction (`nhk_collector_v4.get_news`, lines 72-188)

The BeautifulSoup queries are modelled by record fields: `detailBody`
holds the result of `select_one('.content--detail-body')` (with
`text` the `get_text()` of the element after script removal and
`sections` the `select('.content--body')` children), `scripts` the
`script.string` values, `newsText` the `select_one('.news_text')`
result. -/

structure SectionElV4 where
  bodyTitle : Option String
  bodyText : Option String
deriving DecidableEq

structure DetailBodyV4 where
  text : String
  sections : List SectionElV4
deriving DecidableEq

structure NewsTextV4 where
  text : String
  headings : List String
  paragraphs : List String
deriving DecidableEq

structure PageV4 where
  detailBody : Option DetailBodyV4
  scripts : List (Option String)
  newsText : Option NewsTextV4
deriving DecidableEq

/-- The shared `<article>` + `<h1>` + content-div opening built at the
start of every strategy rendering. -/
def articleHeader (title : String) : String :=
  "<article class=\"nhk-article\">" ++ ("<h1>" ++ title ++ "</h1>")
    ++ "<div class=\"nhk-article-content\">"

/-- Strategy 1 of v4 (lines 77-112): render from the
`.content--detail-body` element.  Returns `(content_html, content_text)`. -/
def method1V4 (title : String) (db : DetailBodyV4) : String × String :=
  let contentText := cleanTextV4 db.text
  let core :=
    if db.sections ≠ [] then
      db.sections.foldl (fun acc s =>
        let hpart :=
          match s.bodyTitle with
          | some h =>
            let ht := cleanTextV4 h
            if ht ≠ "" then "<h2>" ++ ht ++ "</h2>" else ""
          | none => ""
        let ppart :=
          match s.bodyText with
          | some b =>
            let pt := cleanTextV4 b
            if pt ≠ "" then pt ++ "<br //><br />" else ""
          | none => ""
        acc ++ hpart ++ ppart) ""
    else contentText
  (articleHeader title ++ core ++ "</div></article>", contentText)

/-- Model of Python `str.split('\n')`. -/
def splitOnNl : List Char → List (List Char)
  | [] => [[]]
  | c :: cs =>
    if c = '\n' then [] :: splitOnNl cs
    else
      match splitOnNl cs with
      | [] => [[c]]
      | n :: ns => (c :: n) :: ns

/-- Strategy 2 of v4 (lines 115-147): render from the `more` field of the
`__DetailProp__` script payload. -/
def method2V4 (title moreRaw : String) : String × String :=
  let mc := brToNewline (cleanTextV4 moreRaw)
  let parts := (splitOnNl mc.data).foldl (fun acc p =>
      let ps : String := ⟨stripChars p⟩
      if ps ≠ "" then acc ++ ps ++ "<br //><br />" else acc) ""
  (articleHeader title ++ parts ++ "</div></article>", mc)

/-- Strategy 3 of v4 (lines 150-183): render from the `.news_text`
element. -/
def method3V4 (title : String) (nt : NewsTextV4) : String × String :=
  let ctext := cleanTextV4 nt.text
  let hparts := nt.headings.foldl (fun acc h =>
      let ht := cleanTextV4 h
      if ht ≠ "" then acc ++ "<h2>" ++ ht ++ "</h2>" else acc) ""
  let pparts :=
    if nt.paragraphs ≠ [] then
      nt.paragraphs.foldl (fun acc p =>
        let pt := cleanTextV4 p
        if pt ≠ "" then acc ++ pt ++ "<br //><br />" else acc) ""
    else ctext
  (articleHeader title ++ hparts ++ pparts ++ "</div></article>", ctext)

/-- Terminal fallback of v4 (lines 186-188): title-only stub, no link. -/
def fallbackV4 (title : String) : String × String :=
  ("<article class=\"nhk-article\"><h1>" ++ title
     ++ "</h1><div class=\"nhk-article-content\"></div></article>", title)

/-- Embeds the per-article extraction chain of `nhk_collector_v4.get_news`
(lines 67-188): the selector strategy first, the embedded-data script
second, `.news_text` third, title-only stub last; each later stage is
guarded by `if not content_html`.  `entryTitle` is the raw RSS title
(cleaned at line 70). -/
def v4Extract (entryTitle : String) (pg : PageV4) : String × String :=
  let title := cleanTextV4 entryTitle
  let r1 :=
    match pg.detailBody with
    | some db => method1V4 title db
    | none => ("", "")
  let r2 :=
    if r1.1 = "" then
      match findDetailScript pg.scripts with
      | some sc =>
        match reFieldStr "more" sc with
        | some m => method2V4 title m
        | none => r1
      | none => r1
    else r1
  let r3 :=
    if r2.1 = "" then
      match pg.newsText with
      | some nt => method3V4 title nt
      | none => r2
    else r2
  if r3.1 = "" then fallbackV4 title else r3

/-! ### v1 embedded-data extraction (`NHKCollector.collect`, lines 62-167) -/

/-- Result of the embedded-script strategy: possibly overridden title,
rendered HTML (empty when the `more` field is absent), text, and the
structured-content accumulator. -/
structure EmbeddedOut where
  title : String
  contentHtml : String
  contentText : String
  structured : StructuredV1
deriving DecidableEq

/-- The per-section loop over the `body` payload (lines 129-157): one
`<h2>` per title, optional paragraph, optional image.  `detailType`
values are extracted by the source (line 123) but never used.  Both
branches of the image-path conditional prepend `base_url + '/'`
(lines 152-155 are identical). -/
def embBodySections (baseUrl : String) :
    List String → List String → List String → String × List Sect × List String
  | [], _, _ => ("", [], [])
  | t :: ts, texts, imgs =>
    let st := cleanText t
    let hpart := "<h2>" ++ st ++ "</h2>"
    let (sc, ppart) :=
      match texts with
      | tx :: _ =>
        if tx ≠ "" then
          let c := brToNewline (cleanText tx)
          (c, "<p>" ++ c ++ "</p>")
        else ("", "")
      | [] => ("", "")
    let (ipart, imgsHere) :=
      match imgs with
      | im :: _ =>
        if im ≠ "" then
          let u := baseUrl ++ "/" ++ im
          ("<img src=\"" ++ u ++ "\" alt=\"" ++ st ++ "\">", [u])
        else ("", [])
      | [] => ("", [])
    let rest := embBodySections baseUrl ts texts.tail imgs.tail
    (hpart ++ ppart ++ ipart ++ rest.1,
     ⟨some st, some 2, .str sc⟩ :: rest.2.1,
     imgsHere ++ rest.2.2)

/-- Embeds lines 73-165 of `NHKCollector.collect`: the `__DetailProp__`
payload is mined for `title`, `img`, `summary`, `more` and `body`
fields.  When `more` is absent the rendered HTML stays empty and the
chain falls through to the selector walk (title override, summary
section and thumbnail persist). -/
def embeddedExtractV1 (baseUrl title0 : String) (sc : String) : EmbeddedOut :=
  let title :=
    match reFieldStr "title" sc with
    | some t => cleanText t
    | none => title0
  let thumb :=
    match reFieldStr "img" sc with
    | some p => some (baseUrl ++ "/" ++ p)
    | none => none
  let sections1 :=
    match reFieldStr "summary" sc with
    | some s => [⟨some "サマリー", some 2, .str (cleanText s)⟩]
    | none => ([] : List Sect)
  match reFieldStr "more" sc with
  | none => ⟨title, "", "", ⟨sections1, [], [], thumb⟩⟩
  | some m =>
    let mc := brToNewline (cleanText m)
    let bodyPart :=
      match bodyMatch sc with
      | some bc =>
        embBodySections baseUrl (reFieldAll "title" bc)
          (reFieldAll "text" bc) (reFieldAll "img" bc)
      | none => ("", [], [])
    let html := "<article class=\"nhk-article\">" ++ ("<h1>" ++ title ++ "</h1>")
      ++ ("<div class=\"nhk-article-content\">" ++ mc ++ "</div>")
      ++ bodyPart.1 ++ "</article>"
    ⟨title, html, getTextStrip html, ⟨sections1 ++ bodyPart.2.1, bodyPart.2.2, [], thumb⟩⟩

/-! ### v1 selector cascade (`NHKCollector.collect`, lines 169-591)

Element queries are modelled by records: `serialized` is `str(el)` after
`script` children are extracted, `text` is `get_text(strip=True)`,
`paragraphs`, `images`, `headings` and `lists` hold the respective
sub-query results in document order. -/

structure ElV1 where
  serialized : String
  text : String
  paragraphs : List String
  images : List String
  headings : List (Nat × String)
  lists : List (Bool × List String)
  className : String
deriving DecidableEq

/-- A candidate content section together with its two class-based
sub-queries (lines 483 and 503). -/
structure ContentSectionV1 where
  el : ElV1
  detailBody : Option ElV1
  newsText : Option ElV1
deriving DecidableEq

/-- One `article` element of `#main` with the sub-queries the cascade
performs on it. -/
structure ArticleV1 where
  target : Option ElV1
  altParagraphs : List ElV1
  bodyTextEl : Option ElV1
  sectionSections : List ContentSectionV1
  selfSection : ContentSectionV1
deriving DecidableEq

/-- The `#main` element with its direct queries (lines 236-245). -/
structure MainV1 where
  articles : List ArticleV1
  xpathParagraphs : List ElV1
  contentSummaries : List ElV1
  contentBodies : List ElV1
  newXpathSections : List ElV1
deriving DecidableEq

/-- The whole article page as the v1 cascade sees it. -/
structure PageV1 where
  scripts : List (Option String)
  main : Option MainV1
deriving DecidableEq

/-- Article selection (lines 175-183): `articles[1]` when at least two
exist, else the last one, else none. -/
def articleOfV1 (l : List ArticleV1) : Option ArticleV1 :=
  if 2 ≤ l.length then l.get? 1 else l.getLast?

/-- Last section has a heading and list-typed content (the guard at
lines 288 and 330). -/
def lastHeadedList (l : List Sect) : Bool :=
  match l.getLast? with
  | some s =>
    s.heading.isSome && (match s.content with | .list _ => true | _ => false)
  | none => false

/-- Overwrite the content slot of the last section. -/
def setLastContent (c : SectContent) : List Sect → List Sect
  | [] => []
  | [s] => [{ s with content := c }]
  | a :: b :: rest => a :: setLastContent c (b :: rest)

/-- Append a paragraph into the list-typed content of the last section. -/
def appendLastList (pt : String) : List Sect → List Sect
  | [] => []
  | [s] =>
    [{ s with content := match s.content with
        | .list l => .list (l ++ [pt])
        | c => c }]
  | a :: b :: rest => a :: appendLastList pt (b :: rest)

/-- The heading loop (lines 268-281, repeated at 305-318 and 357-370):
one tag plus one heading section per heading element. -/
def appendHeadingsV1 (el : ElV1) (acc : String × List Sect) : String × List Sect :=
  el.headings.foldl (fun a hl =>
    let ht := cleanText hl.2
    (a.1 ++ "<h" ++ toString hl.1 ++ ">" ++ ht ++ "</h" ++ toString hl.1 ++ ">",
     a.2 ++ [⟨some ht, some hl.1, .list []⟩])) acc

/-- One `.content--summary` element (lines 262-296). -/
def summaryStepV1 (el : ElV1) (acc : String × List Sect) : String × List Sect :=
  let acc1 := appendHeadingsV1 el acc
  let st := cleanText el.text
  let html := acc1.1 ++ "<div class=\"content--summary\">" ++ st ++ "</div>"
  let secs :=
    if lastHeadedList acc1.2 then setLastContent (.str st) acc1.2
    else acc1.2 ++ [⟨some "サマリー", some 2, .str st⟩]
  (html, secs)

/-- One paragraph under a heading-aware walk (lines 320-336, 372-388). -/
def paraHeadedV1 (p : String) (acc : String × List Sect) : String × List Sect :=
  let pt := cleanText p
  let html := acc.1 ++ "<p>" ++ pt ++ "</p>"
  let secs :=
    if lastHeadedList acc.2 then appendLastList pt acc.2
    else acc.2 ++ [⟨none, none, .str pt⟩]
  (html, secs)

/-- One new-xpath section element (lines 299-345). -/
def newXpathStepV1 (el : ElV1) (acc : String × List Sect) : String × List Sect :=
  let acc1 := appendHeadingsV1 el acc
  if el.paragraphs ≠ [] then
    el.paragraphs.foldl (fun a p => paraHeadedV1 p a) acc1
  else
    let st := cleanText el.text
    (acc1.1 ++ "<section>" ++ st ++ "</section>",
     acc1.2 ++ [⟨none, none, .str st⟩])

/-- One `content--body` element (lines 348-397). -/
def bodyStepV1 (el : ElV1) (acc : String × List Sect) : String × List Sect :=
  let acc1 := appendHeadingsV1 el acc
  if el.paragraphs ≠ [] then
    el.paragraphs.foldl (fun a p => paraHeadedV1 p a) acc1
  else
    let bt := cleanText el.text
    (acc1.1 ++ "<div class=\"" ++ el.className ++ "\">" ++ bt ++ "</div>",
     acc1.2 ++ [⟨none, none, .str bt⟩])

/-- One exact-xpath paragraph element (lines 400-411 and 427-438). -/
def xpathParaV1 (el : ElV1) (acc : String × List Sect) : String × List Sect :=
  let pt := cleanText el.text
  (acc.1 ++ "<p>" ++ pt ++ "</p>", acc.2 ++ [⟨none, none, .str pt⟩])

/-- One paragraph of the generic heuristic (lines 543-560): append into a
list-typed last section, else overwrite the last content, else open a
section. -/
def paraGenericV1 (p : String) (acc : String × List Sect) : String × List Sect :=
  let pt := cleanText p
  let html := acc.1 ++ "<p>" ++ pt ++ "</p>"
  let secs :=
    match acc.2.getLast? with
    | some s =>
      match s.content with
      | .list _ => appendLastList pt acc.2
      | _ => setLastContent (.str pt) acc.2
    | none => [⟨none, none, .str pt⟩]
  (html, secs)

/-- One list element of the generic heuristic (lines 563-588). -/
def listStepV1 (le : Bool × List String) (acc : String × List Sect) :
    String × List Sect :=
  let items := le.2.map cleanText
  let inner := items.foldl (fun a i => a ++ "<li>" ++ i ++ "</li>") ""
  let html := acc.1 ++
    (if le.1 then "<ul>" ++ inner ++ "</ul>" else "<ol>" ++ inner ++ "</ol>")
  let secs :=
    if acc.2 ≠ [] then setLastContent (.list items) acc.2
    else [⟨none, none, .list items⟩]
  (html, secs)

/-- The combined-pattern branch (lines 247-414): summaries, then the
new-xpath sections, then `content--body` elements, then the exact-xpath
paragraphs. -/
def combinedStepV1 (title : String) (m : MainV1) (st0 : List Sect) :
    String × List Sect :=
  let acc0 := (articleHeader title, st0)
  let acc1 := m.contentSummaries.foldl (fun a el => summaryStepV1 el a) acc0
  let acc2 := m.newXpathSections.foldl (fun a el => newXpathStepV1 el a) acc1
  let acc3 := m.contentBodies.foldl (fun a el => bodyStepV1 el a) acc2
  let acc4 := m.xpathParagraphs.foldl (fun a el => xpathParaV1 el a) acc3
  (acc4.1 ++ "</div></article>", acc4.2)

/-- The serialized-element wrapper used by the target, body-text,
detail-body and news-text branches. -/
def wrapSerialized (title serialized : String) : String :=
  "<article class=\"nhk-article\">" ++ ("<h1>" ++ title ++ "</h1>")
    ++ ("<div class=\"nhk-article-content\">" ++ serialized ++ "</div>")
    ++ "</article>"

/-- Leading-slash test (`img_src.startswith('/')`). -/
def startsWithSlash (s : String) : Bool :=
  match s.data with
  | '/' :: _ => true
  | _ => false

/-- Relative-path resolution of the selector walk (lines 222-223):
a leading slash gets the base URL prepended, other paths stay. -/
def resolveUrl (baseUrl src : String) : String :=
  if startsWithSlash src then baseUrl ++ src else src

/-- The generic heuristic (lines 522-590): headings, then paragraphs,
then lists of the content section. -/
def genericStepV1 (title : String) (cs : ContentSectionV1) (st0 : List Sect) :
    String × List Sect :=
  let acc0 := (articleHeader title, st0)
  let acc1 := appendHeadingsV1 cs.el acc0
  let acc2 := cs.el.paragraphs.foldl (fun a p => paraGenericV1 p a) acc1
  let acc3 := cs.el.lists.foldl (fun a le => listStepV1 le a) acc2
  (acc3.1 ++ "</div></article>", acc3.2)

/-- Plain paragraph sections for the serialized-wrapper branches. -/
def plainParaSections (ps : List String) : List Sect :=
  ps.map fun p => ⟨none, none, .str (cleanText p)⟩

/-- Embeds the selector cascade of `NHKCollector.collect` (lines
169-591), run only when the embedded strategy produced no HTML.  Returns
the rendered HTML (empty when `#main` or its articles are missing) and
the updated structured content. -/
def selectorCascadeV1 (baseUrl title : String) (om : Option MainV1)
    (st0 : StructuredV1) : String × StructuredV1 :=
  match om with
  | none => ("", st0)
  | some m =>
    match articleOfV1 m.articles with
    | none => ("", st0)
    | some ac =>
      match ac.target with
      | some tgt =>
        (wrapSerialized title tgt.serialized,
         { st0 with
            sections := st0.sections ++ plainParaSections tgt.paragraphs,
            images := st0.images ++ tgt.images.map (resolveUrl baseUrl) })
      | none =>
        if m.xpathParagraphs ≠ [] ∨ m.contentSummaries ≠ [] ∨
            m.contentBodies ≠ [] ∨ m.newXpathSections ≠ [] then
          let r := combinedStepV1 title m st0.sections
          (r.1, { st0 with sections := r.2 })
        else if ac.altParagraphs ≠ [] then
          let r := ac.altParagraphs.foldl (fun a el => xpathParaV1 el a)
            (articleHeader title, st0.sections)
          (r.1 ++ "</div></article>", { st0 with sections := r.2 })
        else
          match ac.bodyTextEl with
          | some bt =>
            (wrapSerialized title bt.serialized,
             { st0 with
                sections := st0.sections ++ plainParaSections bt.paragraphs })
          | none =>
            let cs :=
              match ac.sectionSections with
              | c :: _ => c
              | [] => ac.selfSection
            match cs.detailBody with
            | some db =>
              (wrapSerialized title db.serialized,
               { st0 with
                  sections := st0.sections ++ plainParaSections db.paragraphs })
            | none =>
              match cs.newsText with
              | some nt =>
                (wrapSerialized title nt.serialized,
                 { st0 with
                    sections := st0.sections ++ plainParaSections nt.paragraphs })
              | none =>
                let r := genericStepV1 title cs st0.sections
                (r.1, { st0 with sections := r.2 })

/-- The title-and-link stub of lines 593-595. -/
def v1Stub (title link : String) : String :=
  "<article class=\"nhk-article\"><h1>" ++ title ++ "</h1><p><a href=\""
    ++ link ++ "\">" ++ link ++ "</a></p></article>"

/-- Final per-article extraction outcome of `NHKCollector.collect`. -/
structure V1Out where
  contentHtml : String
  contentText : String
  title : String
  structured : StructuredV1
deriving DecidableEq

/-- The embedded-data stage of `NHKCollector.collect`: the strategy runs
only when a marker script exists (lines 62-72). -/
def v1Embedded (baseUrl title0 : String) (scripts : List (Option String)) :
    EmbeddedOut :=
  match findDetailScript scripts with
  | some sc => embeddedExtractV1 baseUrl title0 sc
  | none => ⟨title0, "", "", emptyStructuredV1⟩

/-- Embeds the per-article extraction of `NHKCollector.collect` (lines
48-601): title cleaning, embedded-data strategy, selector cascade when
it produced nothing, the title-and-link stub when both produced nothing,
and the final text recomputation (line 599). -/
def v1Extract (baseUrl entryTitle entryLink : String) (pg : PageV1) : V1Out :=
  let emb := v1Embedded baseUrl (cleanText entryTitle) pg.scripts
  let r :=
    if emb.contentHtml ≠ "" then (emb.contentHtml, emb.contentText, emb.structured)
    else
      let c := selectorCascadeV1 baseUrl emb.title pg.main emb.structured
      if c.1 = "" then
        (v1Stub emb.title entryLink, emb.title ++ " " ++ entryLink, c.2)
      else (c.1, "", c.2)
  let text := if r.1 ≠ "" ∧ r.2.1 = "" then getTextStrip r.1 else r.2.1
  ⟨r.1, text, emb.title, r.2.2⟩

/-! ### v3 content extraction (`NhkCollectorV3`, lines 244-432) -/

/-- First matching element of the v3 selector list (lines 374-387), with
the sub-queries of lines 391-421. -/
structure MainElV3 where
  serialized : String
  paragraphs : List String
  images : List (String × String)
deriving DecidableEq

/-- One item of the parsed `body` JSON array. -/
inductive BodyItemV3
  | text (content : String)
  | image (url caption : String)
  | video (url caption : String)
  | other
deriving DecidableEq

/-- The v3 structured-content dict (images and videos carry captions). -/
structure StructuredV3 where
  sections : List Sect
  images : List (String × String)
  videos : List (String × String)
deriving DecidableEq

/-- Embeds `NhkCollectorV3._process_body_content` (lines 311-346). -/
def processBodyContentV3 (items : List BodyItemV3) : StructuredV3 :=
  items.foldl (fun st it =>
    match it with
    | .text c => { st with sections := st.sections ++ [⟨none, none, .str c⟩] }
    | .image u cap => { st with images := st.images ++ [(u, cap)] }
    | .video u cap => { st with videos := st.videos ++ [(u, cap)] }
    | .other => st) ⟨[], [], []⟩

/-- Embeds `NhkCollectorV3._extract_content_from_html` (lines 348-432):
wrap the first matching selector element, collecting its non-empty
cleaned paragraphs and resolved images; when nothing matches, return the
title-and-link stub with the single section `title ++ " " ++ url`. -/
def extractContentFromHtmlV3 (baseUrl : String) (titleText : Option String)
    (mainContent : Option MainElV3) (url : String) : String × StructuredV3 :=
  let title := titleText.getD ""
  match mainContent with
  | some mc =>
    ("<article class=\"nhk-article\">" ++ ("<h1>" ++ title ++ "</h1>")
       ++ ("<div class=\"nhk-article-content\">" ++ mc.serialized ++ "</div>")
       ++ "</article>",
     { sections := (mc.paragraphs.map cleanText).filterMap fun pt =>
         if pt ≠ "" then some ⟨none, none, .str pt⟩ else none,
       images := mc.images.map fun im => (resolveUrl baseUrl im.1, im.2),
       videos := [] })
  | none =>
    ("<article class=\"nhk-article\"><h1>" ++ title ++ "</h1><p><a href=\""
       ++ url ++ "\">" ++ url ++ "</a></p></article>",
     { sections := [⟨none, none, .str (title ++ " " ++ url)⟩],
       images := [], videos := [] })

/-- Embeds `NhkCollectorV3._extract_content` (lines 244-293): non-200 or
transport failure yields `("", None)`; the `article.nhk-article`
serialization is the content when present; the `__DetailProp__` body
JSON (parsed by the `jsonParse` oracle) supplies structured content; an
empty content falls back to `_extract_content_from_html`. -/
def extractContentV3 (fetchOk : Bool) (articleEl : Option String)
    (scripts : List (Option String))
    (jsonParse : String → Option (List BodyItemV3))
    (titleText : Option String) (mainContent : Option MainElV3)
    (baseUrl url : String) : String × Option StructuredV3 :=
  if ¬ fetchOk then ("", none)
  else
    let contentHtml := (articleEl.getD "")
    let structured : Option StructuredV3 :=
      match findDetailScript scripts with
      | some sc =>
        match bodyJsonCap sc with
        | some cap =>
          match jsonParse cap with
          | some items => some (processBodyContentV3 items)
          | none => none
        | none => none
      | none => none
    if contentHtml = "" then
      let r := extractContentFromHtmlV3 baseUrl titleText mainContent url
      (r.1, some r.2)
    else (contentHtml, structured)

/-! ### v4 collection boundary (`nhk_collector_v4.get_news`, lines 24-301)
and the dispatcher (`base_collector_v2.py`, lines 213-328) -/

/-- Python truthiness of an optional string field. -/
def truthyStr : Option String → Bool
  | none => false
  | some s => s ≠ ""

/-- Python truthiness of an optional integer field (0 is falsy). -/
def truthyInt : Option Int → Bool
  | none => false
  | some n => n ≠ 0

/-- The feed dict fields `get_news` reads before fetching. -/
structure FeedInfoM where
  source_link : Option String
  media_id : Option Int
  news_category : CatFieldV4
  source_id : Option String
deriving DecidableEq

/-- Return value of `get_news`: either the result dict or the
`{'error': ...}` dict. -/
inductive GetNewsRes
  | okRes (items : List NewsItemM)
  | errRes (msg : String)
deriving DecidableEq

/-- Outcomes of the effectful steps of one `get_news` run: the feed
fetch/parse (an exception propagates to the outer handler), the
per-entry processing outcomes in feed order (an inner exception is the
per-entry `except` of lines 214-216), and the CSV export. -/
structure CollectEnvM where
  fetchFeed : Except String (List (Except String NewsItemM))
  exportOutcome : Except String Unit

/-- The per-entry loop of lines 59-216: failures are logged and skipped
(`continue`), successes appended in order. -/
def entryLoopV4 : List (Except String NewsItemM) → List NewsItemM
  | [] => []
  | .ok it :: rest => it :: entryLoopV4 rest
  | .error _ :: rest => entryLoopV4 rest

/-- Message of the early-return of line 48. -/
def missingFieldsMsg : String := "Required feed information is missing"

/-- Message of the `UnboundLocalError` raised at line 289 when no item
was collected (`source_id` is only assigned inside `if items:` at line
226), caught and stringified by the outer handler of lines 294-296. -/
def unboundSourceIdMsg : String := "name source_id is not defined"

/-- Embeds `nhk_collector_v4.get_news` (lines 24-301).  Returns the
result together with `(session_created, session_closed)`: the session is
created only when none is provided and after the field check, and the
`finally` block closes it exactly when it was created. -/
def get_news (fi : FeedInfoM) (sessionProvided : Bool) (env : CollectEnvM) :
    GetNewsRes × Bool × Bool :=
  if ¬ truthyStr fi.source_link ∨ ¬ truthyInt fi.media_id then
    (.errRes missingFieldsMsg, false, false)
  else
    let created := !sessionProvided
    match env.fetchFeed with
    | .error e => (.errRes e, created, created)
    | .ok outs =>
      let items := entryLoopV4 outs
      if items = [] then (.errRes unboundSourceIdMsg, created, created)
      else
        match env.exportOutcome with
        | .ok _ => (.okRes items, created, created)
        | .error e => (.errRes e, created, created)

/-- One feed as the dispatcher sees it: the configured script name,
whether the module loads and exposes `get_news`, and the plugin outcome
(an `error` is an exception raised by the plugin). -/
structure FeedTaskM where
  scriptName : Option String
  moduleLoads : Bool
  funcFound : Bool
  outcome : Except String (List NewsItemM)

/-- One slot of the dispatcher result list. -/
inductive DispatchEntry
  | okRes (items : List NewsItemM)
  | errMarker (msg : String)
deriving DecidableEq

/-- Embeds `BaseCollectorV2.execute_collectors_for_feeds` (lines
231-272): feeds without a script name or a loadable module are skipped;
a plugin exception becomes an `{'error': ...}` marker in that feed's
slot (via `execute_collector`, lines 223-229); other feeds are
unaffected. -/
def execute_collectors_for_feeds : List FeedTaskM → List DispatchEntry
  | [] => []
  | f :: fs =>
    if ¬ truthyStr f.scriptName then execute_collectors_for_feeds fs
    else if ¬ f.moduleLoads then execute_collectors_for_feeds fs
    else if ¬ f.funcFound then execute_collectors_for_feeds fs
    else
      (match f.outcome with
       | .ok items => DispatchEntry.okRes items
       | .error e => DispatchEntry.errMarker e) :: execute_collectors_for_feeds fs

/-! ### Lemmas about the text utilities -/

theorem unescapeAux_of_not_mem (fuel : Nat) (s : List Char) (h : '&' ∉ s) :
    unescapeAux fuel s = s := by
  induction fuel generalizing s with
  | zero => rfl
  | succ n ih =>
    cases s with
    | nil => rfl
    | cons c cs =>
      simp only [List.mem_cons, not_or] at h
      have hc : ¬ c = '&' := fun hh => h.1 hh.symm
      simp only [unescapeAux, if_neg hc, ih cs h.2]

theorem unescapeChars_of_not_mem (s : List Char) (h : '&' ∉ s) :
    unescapeChars s = s :=
  unescapeAux_of_not_mem _ s h

theorem repl2_of_not_mem (x : Char) (rep : List Char) (s : List Char)
    (h : '\\' ∉ s) : repl2 x rep s = s := by
  induction s with
  | nil => rfl
  | cons c cs ih =>
    simp only [List.mem_cons, not_or] at h
    have hc : ¬ c = '\\' := fun hh => h.1 hh.symm
    rw [repl2.eq_def]
    simp only [if_neg hc]
    rw [ih h.2]

theorem fixEscapes_of_not_mem (s : List Char) (h : '\\' ∉ s) :
    fixEscapes s = s := by
  unfold fixEscapes
  rw [repl2_of_not_mem _ _ _ h, repl2_of_not_mem _ _ _ h,
    repl2_of_not_mem _ _ _ h, repl2_of_not_mem _ _ _ h,
    repl2_of_not_mem _ _ _ h, repl2_of_not_mem _ _ _ h,
    repl2_of_not_mem _ _ _ h]

theorem uHasMatch_eq_false_of_not_mem (s : List Char) (h : '\\' ∉ s) :
    uHasMatch s = false := by
  induction s using uHasMatch.induct with
  | case1 a b c d rest ih =>
    exact absurd (List.mem_cons_self _ _) h
  | case2 ch rest hne ih =>
    simp only [List.mem_cons, not_or] at h
    rw [uHasMatch.eq_2 ch rest hne]
    exact ih h.2
  | case3 => rfl

theorem uLoop_of_no_match (n : Nat) (s : List Char) (h : uHasMatch s = false) :
    uLoop n s = s := by
  cases n with
  | zero => rfl
  | succ m => simp [uLoop, h]

theorem cleanUnicode_of_not_mem (s : List Char) (h : '\\' ∉ s) :
    cleanUnicode s = s :=
  uLoop_of_no_match _ s (uHasMatch_eq_false_of_not_mem s h)

theorem uDecodeStep_length_le (s : List Char) :
    (uDecodeStep s).length ≤ s.length := by
  induction s using uDecodeStep.induct with
  | case1 a b c d rest hx ih =>
    rw [uDecodeStep.eq_1, if_pos hx]
    simp only [List.length_cons]
    omega
  | case2 a b c d rest hx ih =>
    rw [uDecodeStep.eq_1, if_neg hx]
    simp only [List.length_cons] at ih ⊢
    omega
  | case3 ch rest hne ih =>
    rw [uDecodeStep.eq_2 ch rest hne]
    simp only [List.length_cons] at ih ⊢
    omega
  | case4 => simp [uDecodeStep]

theorem uDecodeStep_length_lt (s : List Char) (h : uHasMatch s = true) :
    (uDecodeStep s).length + 5 ≤ s.length := by
  induction s using uDecodeStep.induct with
  | case1 a b c d rest hx ih =>
    have hlen := uDecodeStep_length_le rest
    rw [uDecodeStep.eq_1, if_pos hx]
    simp only [List.length_cons]
    omega
  | case2 a b c d rest hx ih =>
    simp only [uHasMatch, Bool.or_eq_true] at h
    rcases h with h | h
    · exact absurd h hx
    · have hlen := ih h
      rw [uDecodeStep.eq_1, if_neg hx]
      simp only [List.length_cons] at hlen ⊢
      omega
  | case3 ch rest hne ih =>
    rw [uHasMatch.eq_2 ch rest hne] at h
    have hlen := ih h
    rw [uDecodeStep.eq_2 ch rest hne]
    simp only [List.length_cons] at hlen ⊢
    omega
  | case4 => simp [uHasMatch] at h

theorem uLoop_no_match_of_lt (n : Nat) (s : List Char) (h : s.length < 5 * n) :
    uHasMatch (uLoop n s) = false := by
  induction n generalizing s with
  | zero => omega
  | succ m ih =>
    by_cases hm : uHasMatch s = true
    · have hlt := uDecodeStep_length_lt s hm
      simp only [uLoop, hm, if_true]
      exact ih (uDecodeStep s) (by omega)
    · simp only [Bool.not_eq_true] at hm
      simp [uLoop, hm]

theorem uLoop_add (n k : Nat) (s : List Char) :
    uLoop (n + k) s = uLoop k (uLoop n s) := by
  induction n generalizing s with
  | zero => simp [uLoop]
  | succ m ih =>
    by_cases hm : uHasMatch s = true
    · have : m + 1 + k = (m + k) + 1 := by omega
      rw [this]
      simp only [uLoop, hm, if_true]
      exact ih (uDecodeStep s)
    · simp only [Bool.not_eq_true] at hm
      have h1 : uLoop (m + 1) s = s := uLoop_of_no_match _ s hm
      have h2 : uLoop (m + 1 + k) s = s := uLoop_of_no_match _ s hm
      rw [h1, h2, uLoop_of_no_match _ s hm]

theorem uLoop_eq_cleanUnicode (n : Nat) (s : List Char) (h : s.length < 5 * n) :
    uLoop n s = cleanUnicode s := by
  have hN : s.length < 5 * (s.length + 1) := by omega
  have h1 : uLoop (n + (s.length + 1)) s = uLoop n s := by
    rw [uLoop_add]
    exact uLoop_of_no_match _ _ (uLoop_no_match_of_lt n s h)
  have h2 : uLoop ((s.length + 1) + n) s = cleanUnicode s := by
    rw [uLoop_add]
    exact uLoop_of_no_match _ _ (uLoop_no_match_of_lt _ s hN)
  rw [← h1, Nat.add_comm, h2]

theorem collapseWs_cons_of_not_ws (d : Char) (rest : List Char)
    (h : isWs d = false) : ∃ t, collapseWs (d :: rest) = d :: t := by
  cases rest with
  | nil => exact ⟨[], by simp [collapseWs, h]⟩
  | cons e rs => exact ⟨collapseWs (e :: rs), by simp [collapseWs, h]⟩

theorem isWs_space : isWs ' ' = true := by decide

theorem eq_space_of_isWs (c : Char) (hw : isWs c = true)
    (hcond : (!isWs c || c = ' ') = true) : c = ' ' := by
  rw [hw] at hcond
  simpa using hcond

theorem collapsedB_head_cond (d : Char) (l : List Char)
    (h : collapsedB (d :: l) = true) : (!isWs d || d = ' ') = true := by
  cases l with
  | nil => simpa [collapsedB] using h
  | cons e rs =>
    simp only [collapsedB, Bool.and_eq_true] at h
    exact h.1.1

theorem collapsedB_collapseWs (s : List Char) :
    collapsedB (collapseWs s) = true := by
  induction s using collapseWs.induct with
  | case1 => rfl
  | case2 c hw =>
    simp only [collapseWs, if_pos hw]
    decide
  | case3 c hw =>
    simp only [Bool.not_eq_true] at hw
    simp [collapseWs, hw, collapsedB]
  | case4 c d rest hc hd ih =>
    simpa [collapseWs, hc, hd] using ih
  | case5 c d rest hc hd ih =>
    simp only [Bool.not_eq_true] at hd
    obtain ⟨t, ht⟩ := collapseWs_cons_of_not_ws d rest hd
    rw [ht] at ih
    have hdns : ¬ d = ' ' := by
      intro hde
      rw [hde] at hd
      simp [isWs] at hd
    simp only [collapseWs, if_pos hc, if_neg (by simp [hd] : ¬ isWs d = true), ht]
    simp [collapsedB, hdns, ih]
  | case6 c d rest hc ih =>
    simp only [Bool.not_eq_true] at hc
    cases hrest : collapseWs (d :: rest) with
    | nil =>
      simp [collapseWs, hc, hrest, collapsedB]
    | cons e t =>
      rw [hrest] at ih
      have hcs : ¬ c = ' ' := by
        intro hce
        rw [hce] at hc
        simp [isWs] at hc
      simp only [collapseWs, if_neg (by simp [hc] : ¬ isWs c = true), hrest]
      simp [collapsedB, hc, ih, hcs]

theorem collapseWs_of_collapsedB (s : List Char) (h : collapsedB s = true) :
    collapseWs s = s := by
  induction s using collapsedB.induct with
  | case1 => rfl
  | case2 c =>
    simp only [collapsedB] at h
    by_cases hc : isWs c = true
    · have hcs : c = ' ' := eq_space_of_isWs c hc h
      simp [collapseWs, hc, hcs]
    · simp only [Bool.not_eq_true] at hc
      simp [collapseWs, hc]
  | case3 c d rest ih =>
    simp only [collapsedB, Bool.and_eq_true] at h
    obtain ⟨⟨hcw, hpair⟩, hrest⟩ := h
    have ihr := ih hrest
    by_cases hc : isWs c = true
    · have hcs : c = ' ' := eq_space_of_isWs c hc hcw
      have hd : isWs d = false := by
        by_cases hdw : isWs d = true
        · exfalso
          have hds : d = ' ' :=
            eq_space_of_isWs d hdw (collapsedB_head_cond d rest hrest)
          rw [hcs, hds] at hpair
          simp at hpair
        · simp only [Bool.not_eq_true] at hdw
          exact hdw
      simp only [collapseWs, if_pos hc, if_neg (by simp [hd] : ¬ isWs d = true), ihr]
      rw [hcs]
    · simp only [Bool.not_eq_true] at hc
      simp [collapseWs, hc, ihr]

theorem collapsedB_tail (c : Char) (cs : List Char)
    (h : collapsedB (c :: cs) = true) : collapsedB cs = true := by
  cases cs with
  | nil => rfl
  | cons d ds =>
    simp only [collapsedB, Bool.and_eq_true] at h
    exact h.2

theorem collapsedB_of_prefix (l t : List Char)
    (h : collapsedB (l ++ t) = true) : collapsedB l = true := by
  induction l with
  | nil => rfl
  | cons c cs ih =>
    cases cs with
    | nil =>
      cases t with
      | nil => exact h
      | cons e ts =>
        simp only [List.cons_append, List.nil_append] at h
        simp only [collapsedB, Bool.and_eq_true] at h
        simp only [collapsedB]
        exact h.1.1
    | cons d ds =>
      simp only [List.cons_append] at h ih
      simp only [collapsedB, Bool.and_eq_true] at h
      simp only [collapsedB, Bool.and_eq_true]
      exact ⟨h.1, ih h.2⟩

theorem collapsedB_of_suffix (l t : List Char)
    (h : collapsedB (t ++ l) = true) : collapsedB l = true := by
  induction t with
  | nil => exact h
  | cons c cs ih =>
    simp only [List.cons_append] at h
    exact ih (collapsedB_tail _ _ h)

theorem rstripChars_prefix (l : List Char) : rstripChars l <+: l := by
  induction l with
  | nil => exact List.prefix_refl _
  | cons c cs ih =>
    simp only [rstripChars]
    cases hr : rstripChars cs with
    | nil =>
      by_cases hc : isWs c = true
      · simp [hc]
      · simp only [Bool.not_eq_true] at hc
        simp [hc, List.prefix_cons_inj]
    | cons d ds =>
      rw [hr] at ih
      exact (List.prefix_cons_inj c).mpr ih

theorem collapsedB_stripChars (l : List Char) (h : collapsedB l = true) :
    collapsedB (stripChars l) = true := by
  have h1 : collapsedB (l.dropWhile isWs) = true := by
    obtain ⟨t, ht⟩ := (List.dropWhile_suffix (l := l) (p := isWs))
    exact collapsedB_of_suffix _ t (by rw [ht]; exact h)
  obtain ⟨t, ht⟩ := rstripChars_prefix (l.dropWhile isWs)
  simp only [stripChars]
  exact collapsedB_of_prefix _ t (by rw [ht]; exact h1)

theorem rstripChars_cons (c : Char) (cs : List Char) :
    rstripChars (c :: cs) =
      match rstripChars cs with
      | [] => if isWs c = true then [] else [c]
      | d :: ds => c :: d :: ds := rfl

theorem rstripChars_idem (l : List Char) :
    rstripChars (rstripChars l) = rstripChars l := by
  induction l with
  | nil => rfl
  | cons c cs ih =>
    cases hr : rstripChars cs with
    | nil =>
      by_cases hc : isWs c = true
      · have hcc : rstripChars (c :: cs) = [] := by
          rw [rstripChars_cons, hr]
          simp [hc]
        rw [hcc]
        rfl
      · simp only [Bool.not_eq_true] at hc
        have hcc : rstripChars (c :: cs) = [c] := by
          rw [rstripChars_cons, hr]
          simp [hc]
        rw [hcc, rstripChars_cons]
        simp [rstripChars, hc]
    | cons d ds =>
      rw [hr] at ih
      have hcc : rstripChars (c :: cs) = c :: d :: ds := by
        rw [rstripChars_cons, hr]
      rw [hcc, rstripChars_cons, ih]

theorem rstripChars_head_cases (c : Char) (cs : List Char) :
    rstripChars (c :: cs) = [] ∨ ∃ t, rstripChars (c :: cs) = c :: t := by
  simp only [rstripChars]
  cases rstripChars cs with
  | nil =>
    by_cases hc : isWs c = true
    · simp [hc]
    · simp only [Bool.not_eq_true] at hc
      simp [hc]
  | cons d ds => right; exact ⟨d :: ds, rfl⟩

theorem dropWhile_rstripChars_dropWhile (l : List Char) :
    (rstripChars (l.dropWhile isWs)).dropWhile isWs
      = rstripChars (l.dropWhile isWs) := by
  cases hd : l.dropWhile isWs with
  | nil => simp [hd, rstripChars]
  | cons c cs =>
    have hc : isWs c = false := by
      have := List.head?_dropWhile_not isWs l
      rw [hd] at this
      simpa using this
    rcases rstripChars_head_cases c cs with h | ⟨t, ht⟩
    · simp [h]
    · rw [ht, List.dropWhile_cons_of_neg (by simp [hc])]

theorem stripChars_idem (l : List Char) :
    stripChars (stripChars l) = stripChars l := by
  unfold stripChars
  rw [dropWhile_rstripChars_dropWhile, rstripChars_idem]

theorem strip_collapse_idem (l : List Char) :
    stripChars (collapseWs (stripChars (collapseWs l)))
      = stripChars (collapseWs l) := by
  have h1 : collapsedB (stripChars (collapseWs l)) = true :=
    collapsedB_stripChars _ (collapsedB_collapseWs l)
  rw [collapseWs_of_collapsedB _ h1, stripChars_idem]



/-! ### Idempotence of the text normalizers -/

theorem cleanTextV4Chars_idem (z : List Char)
    (h : '&' ∉ cleanTextV4Chars z) :
    cleanTextV4Chars (cleanTextV4Chars z) = cleanTextV4Chars z := by
  conv_lhs => rw [cleanTextV4Chars]
  rw [unescapeChars_of_not_mem _ h]
  exact strip_collapse_idem (unescapeChars z)

theorem cleanTextChars_idem (z : List Char)
    (hamp : '&' ∉ cleanTextChars z) (hbs : '\\' ∉ cleanTextChars z) :
    cleanTextChars (cleanTextChars z) = cleanTextChars z := by
  conv_lhs => rw [cleanTextChars]
  rw [unescapeChars_of_not_mem _ hamp, cleanUnicode_of_not_mem _ hbs,
    fixEscapes_of_not_mem _ hbs]
  exact strip_collapse_idem (fixEscapes (cleanUnicode (unescapeChars z)))

/-- C5: the claim asserts idempotence of the normalizer for all inputs;
that fails (see the counterexample), and the amended statement holds:
both `_clean_text` variants are idempotent on every input whose
normalized form is free of remaining escape markers (no `&` for the
entity decoder; additionally no backslash for the v1/v2/v3 variant).
The functions are total by construction, so they never raise. -/
theorem clean_text_idempotent_on_escape_free :
    (∀ s : String, '&' ∉ (cleanTextV4 s).data →
        cleanTextV4 (cleanTextV4 s) = cleanTextV4 s) ∧
    (∀ s : String, '&' ∉ (cleanText s).data → '\\' ∉ (cleanText s).data →
        cleanText (cleanText s) = cleanText s) := by
  constructor
  · intro s h
    show (⟨cleanTextV4Chars (cleanTextV4Chars s.data)⟩ : String) = _
    rw [cleanTextV4Chars_idem s.data h]
    rfl
  · intro s h1 h2
    show (⟨cleanTextChars (cleanTextChars s.data)⟩ : String) = _
    rw [cleanTextChars_idem s.data h1 h2]
    rfl

/-- Witness for C5 at concrete inputs whose cleaned forms are escape-free. -/
theorem clean_text_idempotent_on_escape_free_witness :
    ('&' ∉ (cleanTextV4 " a &lt; b ").data ∧
      cleanTextV4 (cleanTextV4 " a &lt; b ") = cleanTextV4 " a &lt; b ") ∧
    ('&' ∉ (cleanText " x \\u0041 y ").data ∧
      '\\' ∉ (cleanText " x \\u0041 y ").data ∧
      cleanText (cleanText " x \\u0041 y ") = cleanText " x \\u0041 y ") :=
  ⟨⟨by decide, clean_text_idempotent_on_escape_free.1 _ (by decide)⟩,
   ⟨by decide, by decide,
    clean_text_idempotent_on_escape_free.2 _ (by decide) (by decide)⟩⟩

/-- C5 counterexample: the normalizer is not idempotent on all inputs.
For the v1 variant, `\\/` (backslash backslash slash) cleans to `\//`,
which cleans again to `///`; for the v4 variant, `&amp;amp;` cleans to
`&amp;`, which cleans again to `&`. -/
theorem clean_text_not_idempotent :
    cleanText (cleanText "\\\\/") ≠ cleanText "\\\\/" ∧
    cleanTextV4 (cleanTextV4 "&amp;amp;") ≠ cleanTextV4 "&amp;amp;" := by
  decide

/-- C8: the claim says every listed two-character sequence is rewritten
to its single literal character.  Six of the seven are; the amended
first one is that backslash-slash is rewritten to two slashes `//`
(`text.replace('\\/', '//')`), not to a single slash. -/
theorem escape_rewrites_exact :
    fixEscapes ['\\', '/'] = ['/', '/'] ∧
    fixEscapes ['\\', 'n'] = ['\n'] ∧
    fixEscapes ['\\', 't'] = ['\t'] ∧
    fixEscapes ['\\', 'r'] = ['\r'] ∧
    fixEscapes ['\\', '"'] = ['"'] ∧
    fixEscapes ['\\', Char.ofNat 39] = [Char.ofNat 39] ∧
    fixEscapes ['\\', '\\'] = ['\\'] ∧
    cleanText "a\\/b" = "a//b" := by
  decide

/-- C8 counterexample: backslash-slash does not become a single slash. -/
theorem escape_slash_counterexample :
    fixEscapes ['\\', '/'] ≠ ['/'] ∧ cleanText "a\\/b" ≠ "a/b" := by
  decide

/-- C9: the unicode-escape loop runs until no match remains and
terminates on every input; the amended claim drops the fixed iteration
cap (the source has none): termination comes from every pass with a
match shortening the string by at least five characters, so any fuel
above a fifth of the input length reaches the final value. -/
theorem unicode_loop_terminates :
    (∀ s : List Char, uHasMatch (cleanUnicode s) = false) ∧
    (∀ (s : List Char) (n : Nat), s.length < 5 * n →
        uLoop n s = cleanUnicode s) := by
  constructor
  · intro s
    exact uLoop_no_match_of_lt _ s (by omega)
  · intro s n h
    exact uLoop_eq_cleanUnicode n s h

/-- Witness for C9 at a concrete double-encoded input. -/
theorem unicode_loop_terminates_witness :
    uHasMatch (cleanUnicode "\\u005cu0041".data) = false ∧
    ("\\u005cu0041".data.length < 5 * 3 ∧
      uLoop 3 "\\u005cu0041".data = cleanUnicode "\\u005cu0041".data) :=
  ⟨unicode_loop_terminates.1 _,
   by decide, unicode_loop_terminates.2 _ 3 (by decide)⟩

/-- C9 counterexample to the fixed cap: this input needs eleven passes,
so capping the loop at ten iterations (as the claim asserts the
implementation does) leaves an undecoded `\uXXXX` match, while the
implementation's uncapped loop fully decodes it to `A`. -/
theorem unicode_cap_counterexample :
    uLoop 10 "\\u005cu005cu005cu005cu005cu005cu005cu005cu005cu005cu0041".data ≠
      cleanUnicode "\\u005cu005cu005cu005cu005cu005cu005cu005cu005cu005cu0041".data ∧
    uHasMatch (uLoop 10
      "\\u005cu005cu005cu005cu005cu005cu005cu005cu005cu005cu0041".data) = true ∧
    cleanUnicode "\\u005cu005cu005cu005cu005cu005cu005cu005cu005cu005cu0041".data
      = ['A'] := by
  decide


/-! ### Date-resolver theorems -/

/-- C6: amended date-resolver contract of `_parse_date`: the resolver
takes one candidate string and tries RFC-822 first, then the format
list in order; any non-empty candidate yields a value, with the current
time when every parse fails; but the empty candidate returns `None`
(an absent value), contradicting the claimed never-absent fallback.
The v4 chain (`entry.published` else now) is never absent. -/
theorem date_resolver_order_and_fallback :
    (∀ (P : DateParsers) (s : String), s ≠ "" →
        (parseDateV3 P s).isSome = true) ∧
    (∀ (P : DateParsers) (s : String) (d : PyDateTime), s ≠ "" →
        P.rfc822 s = some d → parseDateV3 P s = some d) ∧
    (∀ (P : DateParsers) (s : String), s ≠ "" → P.rfc822 s = none →
        firstFormatHit P s v3DateFormats = none →
        parseDateV3 P s = some PyDateTime.now) ∧
    (∀ P : DateParsers, parseDateV3 P "" = none) ∧
    (∀ r : Option PyDateTime, (v4PublishDate r).isSome = true) ∧
    (v4PublishDate none = some PyDateTime.now) := by
  refine ⟨?_, ?_, ?_, ?_, ?_, rfl⟩
  · intro P s hs
    unfold parseDateV3
    rw [if_neg hs]
    cases P.rfc822 s with
    | some d => rfl
    | none =>
      cases firstFormatHit P s v3DateFormats with
      | some d => rfl
      | none => rfl
  · intro P s d hs hr
    unfold parseDateV3
    rw [if_neg hs, hr]
  · intro P s hs hr hf
    unfold parseDateV3
    rw [if_neg hs, hr, hf]
  · intro P
    unfold parseDateV3
    rw [if_pos rfl]
  · intro r
    cases r with
    | some d => rfl
    | none => rfl

/-- Witness for C6 at concrete parsers and candidates. -/
theorem date_resolver_order_and_fallback_witness :
    (parseDateV3 noParsers "garbage").isSome = true ∧
    parseDateV3 ⟨fun _ => some (PyDateTime.ts 7), fun _ _ => none⟩ "x"
      = some (PyDateTime.ts 7) ∧
    parseDateV3 noParsers "garbage" = some PyDateTime.now := by
  obtain ⟨h1, h2, h3, _, _, _⟩ := date_resolver_order_and_fallback
  exact ⟨h1 noParsers "garbage" (by decide),
    h2 ⟨fun _ => some (PyDateTime.ts 7), fun _ _ => none⟩ "x"
      (PyDateTime.ts 7) (by decide) rfl,
    h3 noParsers "garbage" (by decide) rfl rfl⟩

/-- C6 counterexample: an empty candidate string returns `None`, not
the current time, so the resolver can return an absent value. -/
theorem date_resolver_empty_counterexample :
    parseDateV3 noParsers "" = none ∧
    parseDateV3 noParsers "" ≠ some PyDateTime.now := by
  constructor
  · rfl
  · intro h
    cases h

/-! ### Category-classifier theorems -/

theorem lookup_getD_mem (l : List (String × Int)) (k : String) (d : Int)
    (S : List Int) (hl : ∀ p ∈ l, p.2 ∈ S) (hd : d ∈ S) :
    ((l.lookup k).getD d) ∈ S := by
  induction l with
  | nil => simpa [List.lookup] using hd
  | cons p ps ih =>
    obtain ⟨a, b⟩ := p
    by_cases hk : (k == a) = true
    · simpa [List.lookup, hk] using hl (a, b) (List.mem_cons_self _ _)
    · simp only [Bool.not_eq_true] at hk
      simp only [List.lookup, hk]
      exact ih fun q hq => hl q (List.mem_cons_of_mem _ hq)

/-- C7: amended classification behaviour.  A present, valid preassigned
category is returned unchanged on both the v3 and the v4 path; the v3
label classifier `_guess_category` is total, lowercases its label,
falls back to the society ID 3 and only produces canonical IDs; but
when the preassigned category is absent, neither path consults the
label: v3 jumps straight to the default 3 and v4 returns 0. -/
theorem category_classification_paths :
    (∀ n : Int, categoryV3Feed (CatFieldV3.val n) = n) ∧
    (categoryV3Feed CatFieldV3.absent = 3 ∧
      categoryV3Feed CatFieldV3.emptyStr = 3) ∧
    (∀ n : Int, categoryV4 (CatFieldV4.val n) = n) ∧
    (categoryV4 CatFieldV4.absent = 0 ∧ categoryV4 CatFieldV4.nanVal = 0) ∧
    (∀ s : String, guessCategoryV3 s ∈ canonicalCategoryIds) ∧
    (∀ s : String, categoryMappingV3.lookup (pyLower s) = none →
        guessCategoryV3 s = 3) ∧
    (guessCategoryV3 "POLITICS" = 1 ∧ guessCategoryV3 "politics" = 1) := by
  refine ⟨fun n => rfl, ⟨rfl, rfl⟩, fun n => rfl, ⟨rfl, rfl⟩, ?_, ?_, by decide⟩
  · intro s
    exact lookup_getD_mem categoryMappingV3 (pyLower s) 3 canonicalCategoryIds
      (by decide) (by decide)
  · intro s h
    unfold guessCategoryV3
    rw [h]
    rfl

/-- Witness for C7 at concrete labels and fields. -/
theorem category_classification_paths_witness :
    categoryV3Feed (CatFieldV3.val 5) = 5 ∧
    categoryV4 (CatFieldV4.val 7) = 7 ∧
    guessCategoryV3 "world" ∈ canonicalCategoryIds ∧
    (categoryMappingV3.lookup (pyLower "unknownlabel") = none ∧
      guessCategoryV3 "unknownlabel" = 3) := by
  obtain ⟨h1, _, h3, _, h5, h6, _⟩ := category_classification_paths
  exact ⟨h1 5, h3 7, h5 "world", by decide, h6 "unknownlabel" (by decide)⟩

/-- C7 counterexample: with no preassigned category and the label
"politics" available, the claimed precedence yields the mapped ID 1
(and at worst the claimed general/society default 3), but the v4 path
returns the fixed 0, which is not even a canonical ID. -/
theorem category_default_counterexample :
    categoryV4 CatFieldV4.absent = 0 ∧
    specClassify (some "politics") none = 1 ∧
    specClassify none none = 3 ∧
    (0 : Int) ∉ canonicalCategoryIds ∧
    categoryV4 CatFieldV4.absent ≠ specClassify (some "politics") none := by
  decide


/-! ### Non-emptiness of rendered content -/

theorem data_append_ne (a b : String) (ha : a.data ≠ []) :
    (a ++ b).data ≠ [] := by
  rw [String.data_append]
  intro h
  rcases List.append_eq_nil.mp h with ⟨h1, _⟩
  exact ha h1

theorem str_ne_empty_of_data (s : String) (h : s.data ≠ []) : s ≠ "" := by
  intro he
  rw [he] at h
  exact h rfl

theorem v1Stub_ne_empty (t u : String) : v1Stub t u ≠ "" := by
  apply str_ne_empty_of_data
  unfold v1Stub
  apply data_append_ne
  apply data_append_ne
  apply data_append_ne
  apply data_append_ne
  apply data_append_ne
  apply data_append_ne
  decide

theorem v1Extract_contentHtml_ne (b t u : String) (pg : PageV1) :
    (v1Extract b t u pg).contentHtml ≠ "" := by
  unfold v1Extract
  by_cases h1 : (v1Embedded b (cleanText t) pg.scripts).contentHtml = ""
  · by_cases h2 : (selectorCascadeV1 b (v1Embedded b (cleanText t) pg.scripts).title
        pg.main (v1Embedded b (cleanText t) pg.scripts).structured).1 = ""
    · simp only [h1, ne_eq, not_true_eq_false, if_false, h2, if_true]
      exact v1Stub_ne_empty _ _
    · simp only [h1, ne_eq, not_true_eq_false, if_false, if_neg h2]
      exact h2
  · simp only [ne_eq, h1, not_false_eq_true, if_true]

/-- C2: amended record invariants.  In `NHKCollector.collect` every
appended item has non-empty `content_html` and a present
`publish_date`, and a present entry category maps into the canonical ID
set — but `category_id` is `None` whenever the feed entry carries no
category attribute.  In `NhkCollectorV3._collect_from_feed` the
`NewsItem` fields pass through unvalidated: the content may be empty,
the publish date absent, and the category any feed-supplied integer. -/
theorem record_invariants_v1 :
    (∀ (b t u : String) (pg : PageV1), (v1Extract b t u pg).contentHtml ≠ "") ∧
    (∀ sd rd : Option PyDateTime, (v1PublishDate sd rd).isSome = true) ∧
    (∀ c : String, v1CategoryId (some c) = some (guessCategoryV1 c) ∧
        guessCategoryV1 c ∈ canonicalCategoryIds) ∧
    (v1CategoryId none = none) ∧
    (∀ (mid : Option Int) (n : Int) (P : DateParsers) (t u pub con : String),
        t ≠ "" → u ≠ "" →
        mkItemV3 mid (CatFieldV3.val n) P t u pub con =
          some { media_id := mid, title := t, url := u, content := con,
                 publish_date := parseDateV3 P pub,
                 category_id := some n, topic_id := none, author := some "" }) := by
  refine ⟨v1Extract_contentHtml_ne, ?_, ?_, rfl, ?_⟩
  · intro sd rd
    cases sd with
    | some d => rfl
    | none => cases rd with
      | some d => rfl
      | none => rfl
  · intro c
    refine ⟨rfl, ?_⟩
    exact lookup_getD_mem categoryMappingV1 c 3 canonicalCategoryIds
      (by decide) (by decide)
  · intro mid n P t u pub con ht hu
    unfold mkItemV3
    have hcond : ¬ (t = "" ∨ u = "") := by
      intro h
      rcases h with h | h
      · exact ht h
      · exact hu h
    rw [if_neg hcond]
    rfl

/-- Witness for C2 at a concrete page, entry and feed row. -/
theorem record_invariants_v1_witness :
    (v1Extract "http://www3.nhk.or.jp" "T" "http://u/x.html"
        ⟨[], none⟩).contentHtml ≠ "" ∧
    (v1PublishDate none none).isSome = true ∧
    (v1CategoryId (some "政治") = some (guessCategoryV1 "政治") ∧
      guessCategoryV1 "政治" ∈ canonicalCategoryIds) ∧
    ("T" ≠ "" ∧ "http://u" ≠ "" ∧
      mkItemV3 (some 1) (CatFieldV3.val 2) noParsers "T" "http://u" "x" "c" =
        some { media_id := some 1, title := "T", url := "http://u",
               content := "c", publish_date := parseDateV3 noParsers "x",
               category_id := some 2, topic_id := none, author := some "" }) := by
  obtain ⟨h1, h2, h3, _, h5⟩ := record_invariants_v1
  exact ⟨h1 _ _ _ _, h2 none none, h3 "政治", by decide, by decide,
    h5 (some 1) 2 noParsers "T" "http://u" "x" "c" (by decide) (by decide)⟩

/-- C2 counterexample: a v3 feed entry with an empty `published` field,
a failed article fetch and the feed-supplied category 99 is appended as
an item whose content is empty, whose publish date is `None`, and whose
category is outside the canonical set; and the v1 path yields a `None`
category when the entry has no category attribute. -/
theorem record_invariants_counterexample :
    mkItemV3 (some 1) (CatFieldV3.val 99) noParsers "T" "http://u" "" "" =
      some { media_id := some 1, title := "T", url := "http://u", content := "",
             publish_date := none, category_id := some 99, topic_id := none,
             author := some "" } ∧
    (99 : Int) ∉ canonicalCategoryIds ∧
    v1CategoryId none = none := by
  decide


/-! ### Minimal-fallback theorems -/

theorem append_space_ne (a b : String) : a ++ " " ++ b ≠ "" := by
  apply str_ne_empty_of_data
  apply data_append_ne
  rw [String.data_append]
  intro h
  rcases List.append_eq_nil.mp h with ⟨_, h2⟩
  exact absurd h2 (by decide)

/-- C3: amended fallback behaviour.  Only the v3 HTML extractor matches
the claim exactly: a stub with the title and an anchor to the URL plus
the single section `title ++ " " ++ url`.  The v1 collector renders the
stub with the anchor and sets `content_text` to `title ++ " " ++ url`,
but leaves the structured sections untouched (no section is added).
The v4 collector renders a title-only stub with no link at all, with
`content_text` equal to the title. -/
theorem minimal_fallback_per_version :
    (∀ (b url : String) (ot : Option String),
        extractContentFromHtmlV3 b ot none url =
          ("<article class=\"nhk-article\"><h1>" ++ ot.getD "" ++ "</h1><p><a href=\""
             ++ url ++ "\">" ++ url ++ "</a></p></article>",
           ⟨[⟨none, none, SectContent.str (ot.getD "" ++ " " ++ url)⟩], [], []⟩)) ∧
    (∀ (b t u : String) (pg : PageV1),
        findDetailScript pg.scripts = none →
        (selectorCascadeV1 b (cleanText t) pg.main emptyStructuredV1).1 = "" →
        v1Extract b t u pg =
          ⟨v1Stub (cleanText t) u, cleanText t ++ " " ++ u, cleanText t,
           (selectorCascadeV1 b (cleanText t) pg.main emptyStructuredV1).2⟩) ∧
    (∀ (t : String) (pg : PageV4),
        pg.detailBody = none → findDetailScript pg.scripts = none →
        pg.newsText = none →
        v4Extract t pg = fallbackV4 (cleanTextV4 t)) := by
  refine ⟨fun b url ot => rfl, ?_, ?_⟩
  · intro b t u pg hscript hcasc
    unfold v1Extract
    have hemb : v1Embedded b (cleanText t) pg.scripts =
        ⟨cleanText t, "", "", emptyStructuredV1⟩ := by
      unfold v1Embedded
      rw [hscript]
    rw [hemb]
    simp only [ne_eq, not_true_eq_false, if_false, hcasc, if_pos]
    have hns : ¬ (v1Stub (cleanText t) u ≠ "" ∧ cleanText t ++ " " ++ u = "") :=
      fun hh => append_space_ne (cleanText t) u hh.2
    rw [if_neg hns]
  · intro t pg hdb hsc hnt
    unfold v4Extract
    rw [hdb, hsc, hnt]
    rfl

/-- Witness for C3 at concrete empty pages. -/
theorem minimal_fallback_per_version_witness :
    extractContentFromHtmlV3 "http://www3.nhk.or.jp" (some "T3") none "http://u/y" =
      ("<article class=\"nhk-article\"><h1>" ++ (some "T3").getD "" ++ "</h1><p><a href=\""
         ++ "http://u/y" ++ "\">" ++ "http://u/y" ++ "</a></p></article>",
       ⟨[⟨none, none, SectContent.str ((some "T3").getD "" ++ " " ++ "http://u/y")⟩], [], []⟩) ∧
    (findDetailScript (PageV1.mk [] none).scripts = none ∧
      (selectorCascadeV1 "b" (cleanText "T") (PageV1.mk [] none).main
        emptyStructuredV1).1 = "" ∧
      v1Extract "b" "T" "http://u/x" (PageV1.mk [] none) =
        ⟨v1Stub (cleanText "T") "http://u/x", cleanText "T" ++ " " ++ "http://u/x",
         cleanText "T",
         (selectorCascadeV1 "b" (cleanText "T") (PageV1.mk [] none).main
           emptyStructuredV1).2⟩) ∧
    v4Extract "T" (PageV4.mk none [] none) = fallbackV4 (cleanTextV4 "T") := by
  obtain ⟨h1, h2, h3⟩ := minimal_fallback_per_version
  exact ⟨h1 "http://www3.nhk.or.jp" "http://u/y" (some "T3"),
    ⟨by decide, by decide,
     h2 "b" "T" "http://u/x" (PageV1.mk [] none) (by decide) (by decide)⟩,
    h3 "T" (PageV4.mk none [] none) rfl rfl rfl⟩

/-- C3 counterexample: the v4 fallback stub contains no anchor and no
URL at all (the URL is not even an input of the v4 rendering), and v4
produces no structured section; the claim requires a link to the
original article and a single `"title url"` section. -/
theorem minimal_fallback_counterexample :
    v4Extract "T" (PageV4.mk none [] none) =
      ("<article class=\"nhk-article\"><h1>T</h1><div class=\"nhk-article-content\"></div></article>",
       "T") ∧
    strContains (v4Extract "T" (PageV4.mk none [] none)).1 "<a " = false ∧
    strContains (v4Extract "T" (PageV4.mk none [] none)).1 "href" = false := by
  decide


/-! ### Strategy-precedence theorems -/

theorem articleHeader_data_ne (t : String) : (articleHeader t).data ≠ [] := by
  unfold articleHeader
  apply data_append_ne
  apply data_append_ne
  decide

theorem method1V4_ne (t : String) (db : DetailBodyV4) :
    (method1V4 t db).1 ≠ "" := by
  apply str_ne_empty_of_data
  simp only [method1V4]
  apply data_append_ne
  apply data_append_ne
  exact articleHeader_data_ne t

theorem method2V4_ne (t m : String) : (method2V4 t m).1 ≠ "" := by
  apply str_ne_empty_of_data
  simp only [method2V4]
  apply data_append_ne
  apply data_append_ne
  exact articleHeader_data_ne t

theorem embeddedExtractV1_text_eq (b t0 sc : String)
    (h : (embeddedExtractV1 b t0 sc).contentHtml ≠ "") :
    (embeddedExtractV1 b t0 sc).contentText =
      getTextStrip (embeddedExtractV1 b t0 sc).contentHtml := by
  unfold embeddedExtractV1 at h ⊢
  cases hm : reFieldStr "more" sc with
  | none =>
    simp only [hm] at h
    exact absurd rfl h
  | some m =>
    simp only [hm]

/-- C1: amended strategy precedence.  In `NHKCollector.collect` (v1) the
embedded-data strategy runs first: whenever the marker script is found
and its `more` field renders non-empty HTML, the final result is exactly
the embedded-data output and the selector walk contributes nothing.  In
`nhk_collector_v4.get_news` the order is reversed: the primary-selector
strategy (`.content--detail-body`) runs first and its result is final
whenever the container exists, with the embedded-data script never
consulted; the embedded-data script is only the second strategy, itself
terminal over `.news_text` and the stub.  In both chains, once a
strategy yields non-empty `content_html`, no later strategy runs or
overrides it. -/
theorem strategy_precedence :
    (∀ (b t u : String) (pg : PageV1) (sc : String),
        findDetailScript pg.scripts = some sc →
        (embeddedExtractV1 b (cleanText t) sc).contentHtml ≠ "" →
        v1Extract b t u pg =
          ⟨(embeddedExtractV1 b (cleanText t) sc).contentHtml,
           (embeddedExtractV1 b (cleanText t) sc).contentText,
           (embeddedExtractV1 b (cleanText t) sc).title,
           (embeddedExtractV1 b (cleanText t) sc).structured⟩) ∧
    (∀ (t : String) (pg : PageV4) (db : DetailBodyV4),
        pg.detailBody = some db →
        v4Extract t pg = method1V4 (cleanTextV4 t) db) ∧
    (∀ (t : String) (pg : PageV4) (sc m : String),
        pg.detailBody = none →
        findDetailScript pg.scripts = some sc →
        reFieldStr "more" sc = some m →
        v4Extract t pg = method2V4 (cleanTextV4 t) m) := by
  refine ⟨?_, ?_, ?_⟩
  · intro b t u pg sc hscript hne
    unfold v1Extract
    have hemb : v1Embedded b (cleanText t) pg.scripts =
        embeddedExtractV1 b (cleanText t) sc := by
      unfold v1Embedded
      rw [hscript]
    rw [hemb]
    simp only [ne_eq, hne, not_false_eq_true, if_true, true_and]
    by_cases htext : (embeddedExtractV1 b (cleanText t) sc).contentText = ""
    · rw [if_pos htext, ← embeddedExtractV1_text_eq b (cleanText t) sc hne]
    · rw [if_neg htext]
  · intro t pg db hdb
    unfold v4Extract
    rw [hdb]
    have h1 := method1V4_ne (cleanTextV4 t) db
    simp [h1]
  · intro t pg sc m hdb hsc hm
    unfold v4Extract
    have h2 := method2V4_ne (cleanTextV4 t) m
    simp only [hdb, hsc, hm]
    simp [h2]

/-- Witness for C1 at concrete pages for each chain position. -/
theorem strategy_precedence_witness :
    (findDetailScript (PageV1.mk
        [some "q __DetailProp__ q; more: \"M\""] none).scripts =
        some "q __DetailProp__ q; more: \"M\"" ∧
      (embeddedExtractV1 "http://www3.nhk.or.jp" (cleanText "T")
        "q __DetailProp__ q; more: \"M\"").contentHtml ≠ "" ∧
      v1Extract "http://www3.nhk.or.jp" "T" "http://u/x"
          (PageV1.mk [some "q __DetailProp__ q; more: \"M\""] none) =
        ⟨(embeddedExtractV1 "http://www3.nhk.or.jp" (cleanText "T")
            "q __DetailProp__ q; more: \"M\"").contentHtml,
         (embeddedExtractV1 "http://www3.nhk.or.jp" (cleanText "T")
            "q __DetailProp__ q; more: \"M\"").contentText,
         (embeddedExtractV1 "http://www3.nhk.or.jp" (cleanText "T")
            "q __DetailProp__ q; more: \"M\"").title,
         (embeddedExtractV1 "http://www3.nhk.or.jp" (cleanText "T")
            "q __DetailProp__ q; more: \"M\"").structured⟩) ∧
    v4Extract "T" (PageV4.mk (some (DetailBodyV4.mk "B" [])) [] none) =
      method1V4 (cleanTextV4 "T") (DetailBodyV4.mk "B" []) ∧
    v4Extract "T" (PageV4.mk none [some "q __DetailProp__ q; more: \"M\""] none) =
      method2V4 (cleanTextV4 "T") "M" := by
  obtain ⟨h1, h2, h3⟩ := strategy_precedence
  refine ⟨⟨by decide, by decide, ?_⟩, h2 "T" _ (DetailBodyV4.mk "B" []) rfl,
    h3 "T" _ "q __DetailProp__ q; more: \"M\"" "M" rfl (by decide) (by decide)⟩
  exact h1 "http://www3.nhk.or.jp" "T" "http://u/x" _
    "q __DetailProp__ q; more: \"M\"" (by decide) (by decide)

/-- C1 counterexample: a v4 page containing both the primary-selector
container and an embedded-data script with a `more` payload extracts
the selector text, not the embedded text — the claim says the
embedded-data result must win.  (With the container absent, the same
script is extracted, confirming the marker and payload are
recognizable.) -/
theorem strategy_precedence_counterexample :
    strContains
      (v4Extract "T" (PageV4.mk (some (DetailBodyV4.mk "Body text." []))
        [some "q __DetailProp__ q; more: \"EMBEDDED TEXT\""] none)).1
      "Body text." = true ∧
    strContains
      (v4Extract "T" (PageV4.mk (some (DetailBodyV4.mk "Body text." []))
        [some "q __DetailProp__ q; more: \"EMBEDDED TEXT\""] none)).1
      "EMBEDDED TEXT" = false ∧
    strContains
      (v4Extract "T" (PageV4.mk none
        [some "q __DetailProp__ q; more: \"EMBEDDED TEXT\""] none)).1
      "EMBEDDED TEXT" = true := by
  decide


/-! ### Failure-isolation theorems -/

/-- C4: failure isolation at both levels.  Per item: the entry loop of
`get_news` keeps exactly the successfully processed entries, in order —
a raising entry is skipped and the rest still processed (in particular
the 3-entry scenario with entry 2 failing yields entries 1 and 3).  Per
feed: the dispatcher processes feeds independently (its result list
distributes over concatenation), and a feed whose plugin raises
contributes exactly one error marker while the remaining feeds' results
are unchanged. -/
theorem failure_isolation :
    (∀ outs : List (Except String NewsItemM),
        entryLoopV4 outs = outs.filterMap Except.toOption) ∧
    (∀ (a c : NewsItemM) (e : String),
        entryLoopV4 [Except.ok a, Except.error e, Except.ok c] = [a, c]) ∧
    (∀ xs ys : List FeedTaskM,
        execute_collectors_for_feeds (xs ++ ys) =
          execute_collectors_for_feeds xs ++ execute_collectors_for_feeds ys) ∧
    (∀ (f : FeedTaskM) (fs : List FeedTaskM) (e : String),
        truthyStr f.scriptName = true → f.moduleLoads = true →
        f.funcFound = true → f.outcome = Except.error e →
        execute_collectors_for_feeds (f :: fs) =
          DispatchEntry.errMarker e :: execute_collectors_for_feeds fs) := by
  refine ⟨?_, ?_, ?_, ?_⟩
  · intro outs
    induction outs with
    | nil => rfl
    | cons o rest ih =>
      cases o with
      | ok it => simp [entryLoopV4, List.filterMap, Except.toOption, ih]
      | error e => simp [entryLoopV4, List.filterMap, Except.toOption, ih]
  · intro a c e
    rfl
  · intro xs ys
    induction xs with
    | nil => rfl
    | cons f fs ih =>
      simp only [List.cons_append, execute_collectors_for_feeds, List.append_eq]
      split_ifs with h1 h2 h3 <;> simp [ih]
  · intro f fs e h1 h2 h3 h4
    simp only [execute_collectors_for_feeds, h1, h2, h3, h4]
    simp

/-- Witness for C4 at a concrete 3-entry batch and 2-feed batch. -/
theorem failure_isolation_witness :
    entryLoopV4 [Except.ok (NewsItemM.mk (some 1) "a" "u1" "c1" none none none none),
        Except.error "transport",
        Except.ok (NewsItemM.mk (some 1) "b" "u2" "c2" none none none none)] =
      [NewsItemM.mk (some 1) "a" "u1" "c1" none none none none,
       NewsItemM.mk (some 1) "b" "u2" "c2" none none none none] ∧
    execute_collectors_for_feeds
        [FeedTaskM.mk (some "01_NHK.nhk_collector_v4") true true
          (Except.error "plugin boom"),
         FeedTaskM.mk (some "01_NHK.nhk_collector_v4") true true
          (Except.ok [NewsItemM.mk (some 2) "b" "u" "c" none none none none])] =
      [DispatchEntry.errMarker "plugin boom",
       DispatchEntry.okRes [NewsItemM.mk (some 2) "b" "u" "c" none none none none]] := by
  obtain ⟨_, h2, _, h4⟩ := failure_isolation
  refine ⟨h2 _ _ "transport", ?_⟩
  rw [h4 _ _ "plugin boom" (by decide) rfl rfl rfl]
  rfl

/-! ### Collection-boundary theorems -/

/-- C10: the v4 plugin entry point is total at its boundary.  A missing
or falsy `source_link`/`media_id` returns the error dict without
consulting the fetch environment at all; a raising feed fetch, a raising
export, and the empty-items path (whose result construction raises
`UnboundLocalError` on `source_id`, caught by the outer handler) all
return error dicts; the successful path returns the collected items; and
on every path the session-closed flag equals the session-created flag
(the session is created only when none was provided and the field check
passed). -/
theorem get_news_boundary :
    (∀ (fi : FeedInfoM) (sp : Bool) (env env2 : CollectEnvM),
        (¬ truthyStr fi.source_link = true ∨ ¬ truthyInt fi.media_id = true) →
        get_news fi sp env = (GetNewsRes.errRes missingFieldsMsg, false, false) ∧
        get_news fi sp env = get_news fi sp env2) ∧
    (∀ (fi : FeedInfoM) (sp : Bool) (env : CollectEnvM) (e : String),
        truthyStr fi.source_link = true → truthyInt fi.media_id = true →
        env.fetchFeed = Except.error e →
        get_news fi sp env = (GetNewsRes.errRes e, !sp, !sp)) ∧
    (∀ (fi : FeedInfoM) (sp : Bool) (env : CollectEnvM)
        (outs : List (Except String NewsItemM)) (e : String),
        truthyStr fi.source_link = true → truthyInt fi.media_id = true →
        env.fetchFeed = Except.ok outs → entryLoopV4 outs ≠ [] →
        env.exportOutcome = Except.error e →
        get_news fi sp env = (GetNewsRes.errRes e, !sp, !sp)) ∧
    (∀ (fi : FeedInfoM) (sp : Bool) (env : CollectEnvM)
        (outs : List (Except String NewsItemM)),
        truthyStr fi.source_link = true → truthyInt fi.media_id = true →
        env.fetchFeed = Except.ok outs → entryLoopV4 outs ≠ [] →
        env.exportOutcome = Except.ok () →
        get_news fi sp env = (GetNewsRes.okRes (entryLoopV4 outs), !sp, !sp)) ∧
    (∀ (fi : FeedInfoM) (sp : Bool) (env : CollectEnvM)
        (outs : List (Except String NewsItemM)),
        truthyStr fi.source_link = true → truthyInt fi.media_id = true →
        env.fetchFeed = Except.ok outs → entryLoopV4 outs = [] →
        get_news fi sp env = (GetNewsRes.errRes unboundSourceIdMsg, !sp, !sp)) ∧
    (∀ (fi : FeedInfoM) (sp : Bool) (env : CollectEnvM),
        (get_news fi sp env).2.1 = (get_news fi sp env).2.2) := by
  have hcond : ∀ (fi : FeedInfoM),
      truthyStr fi.source_link = true → truthyInt fi.media_id = true →
      ¬ (¬ truthyStr fi.source_link = true ∨ ¬ truthyInt fi.media_id = true) := by
    intro fi h1 h2 h
    rcases h with h | h
    · exact h h1
    · exact h h2
  refine ⟨?_, ?_, ?_, ?_, ?_, ?_⟩
  · intro fi sp env env2 h
    constructor
    · unfold get_news
      rw [if_pos h]
    · unfold get_news
      rw [if_pos h, if_pos h]
  · intro fi sp env e h1 h2 hf
    unfold get_news
    rw [if_neg (hcond fi h1 h2), hf]
  · intro fi sp env outs e h1 h2 hf hne hx
    unfold get_news
    rw [if_neg (hcond fi h1 h2), hf]
    simp only [if_neg hne, hx]
  · intro fi sp env outs h1 h2 hf hne hx
    unfold get_news
    rw [if_neg (hcond fi h1 h2), hf]
    simp only [if_neg hne, hx]
  · intro fi sp env outs h1 h2 hf hnil
    unfold get_news
    rw [if_neg (hcond fi h1 h2), hf]
    simp only [if_pos hnil]
  · intro fi sp env
    unfold get_news
    by_cases h : (¬ truthyStr fi.source_link = true ∨ ¬ truthyInt fi.media_id = true)
    · rw [if_pos h]
    · rw [if_neg h]
      cases henv : env.fetchFeed with
      | error e => rfl
      | ok outs =>
        by_cases hnil : entryLoopV4 outs = []
        · simp only [if_pos hnil]
        · simp only [if_neg hnil]
          cases env.exportOutcome with
          | ok u => rfl
          | error e => rfl

/-- Witness for C10 at concrete feed dicts and environments. -/
theorem get_news_boundary_witness :
    get_news (FeedInfoM.mk none (some 1) CatFieldV4.absent none) true
        ⟨Except.error "never fetched", Except.ok ()⟩ =
      (GetNewsRes.errRes missingFieldsMsg, false, false) ∧
    get_news (FeedInfoM.mk (some "http://rss") (some 1) CatFieldV4.absent none) true
        ⟨Except.error "boom", Except.ok ()⟩ =
      (GetNewsRes.errRes "boom", !true, !true) ∧
    get_news (FeedInfoM.mk (some "http://rss") (some 1) CatFieldV4.absent none) false
        ⟨Except.ok [Except.ok (NewsItemM.mk (some 1) "t" "u" "c" none none none none)],
         Except.ok ()⟩ =
      (GetNewsRes.okRes [NewsItemM.mk (some 1) "t" "u" "c" none none none none],
       !false, !false) ∧
    get_news (FeedInfoM.mk (some "http://rss") (some 1) CatFieldV4.absent none) false
        ⟨Except.ok [], Except.ok ()⟩ =
      (GetNewsRes.errRes unboundSourceIdMsg, !false, !false) := by
  obtain ⟨h1, h2, _, h4, h5, _⟩ := get_news_boundary
  refine ⟨(h1 _ true _ ⟨Except.error "never fetched", Except.ok ()⟩
      (by decide)).1,
    h2 _ true _ "boom" (by decide) (by decide) rfl, ?_,
    h5 _ false _ [] (by decide) (by decide) rfl rfl⟩
  rw [h4 _ false _
    [Except.ok (NewsItemM.mk (some 1) "t" "u" "c" none none none none)]
    (by decide) (by decide) rfl (by decide) rfl]
  rfl

end NewsCollector
